import Mathlib

/-!
Verification of the LakanaRAG core (lightrag/operate.py, lightrag/deepsearch.py)
against its natural-language specification.

The Python source is shallowly embedded: Python strings are Lean `String`s
(sequences of code points, manipulated through their `List Char` data),
Python floats are modelled as exact rationals `ℚ`, Python dicts holding
records become Lean structures, and the async storage backends / LLM calls
become explicit state passing plus oracle functions supplied as arguments.
CPython set-iteration order is not observable in any way the source relies
on except through `"sep".join(set(...))`; those joins are canonicalised to
sorted order here (the source itself sorts the description / keyword sets).
-/

/-! ## String machinery

Python string primitives used by the source (`str.split`, `str.strip`,
`str.join`, `sorted`, `str.lower`) are implemented on the underlying
character lists so that they compute inside the kernel.
-/

/-- Lexicographic comparison of character lists by code point, mirroring
Python string `<=`. -/
def charsLeB : List Char → List Char → Bool
  | [], _ => true
  | _ :: _, [] => false
  | a :: as, b :: bs =>
    if a.toNat < b.toNat then true
    else if b.toNat < a.toNat then false
    else charsLeB as bs

/-- Python string comparison `a <= b` (code-point lexicographic). -/
def pyLe (a b : String) : Bool := charsLeB a.data b.data

theorem charsLeB_total (a b : List Char) : charsLeB a b = true ∨ charsLeB b a = true := by
  induction a generalizing b with
  | nil => left; rfl
  | cons x xs ih =>
    cases b with
    | nil => right; rfl
    | cons y ys =>
      simp only [charsLeB]
      rcases Nat.lt_trichotomy x.toNat y.toNat with h | h | h
      · left; simp [h]
      · have hx : ¬ x.toNat < y.toNat := by omega
        have hy : ¬ y.toNat < x.toNat := by omega
        rcases ih ys with h2 | h2
        · left; simp [hx, hy, h2]
        · right; simp [hx, hy, h2]
      · right; simp [h]

theorem charsLeB_trans {a b c : List Char} (h1 : charsLeB a b = true)
    (h2 : charsLeB b c = true) : charsLeB a c = true := by
  induction a generalizing b c with
  | nil => rfl
  | cons x xs ih =>
    cases b with
    | nil => simp [charsLeB] at h1
    | cons y ys =>
      cases c with
      | nil => simp [charsLeB] at h2
      | cons z zs =>
        simp only [charsLeB] at h1 h2 ⊢
        rcases Nat.lt_trichotomy x.toNat y.toNat with hxy | hxy | hxy <;>
          rcases Nat.lt_trichotomy y.toNat z.toNat with hyz | hyz | hyz
        · simp [show x.toNat < z.toNat from by omega]
        · simp [show x.toNat < z.toNat from by omega]
        · rw [if_neg (by omega), if_pos (by omega)] at h2
          exact absurd h2 (by simp)
        · simp [show x.toNat < z.toNat from by omega]
        · rw [if_neg (by omega), if_neg (by omega)] at h1
          rw [if_neg (by omega), if_neg (by omega)] at h2
          rw [if_neg (by omega), if_neg (by omega)]
          exact ih h1 h2
        · rw [if_neg (by omega), if_pos (by omega)] at h2
          exact absurd h2 (by simp)
        · rw [if_neg (by omega), if_pos (by omega)] at h1
          exact absurd h1 (by simp)
        · rw [if_neg (by omega), if_pos (by omega)] at h1
          exact absurd h1 (by simp)
        · rw [if_neg (by omega), if_pos (by omega)] at h1
          exact absurd h1 (by simp)

theorem char_toNat_inj {a b : Char} (h : a.toNat = b.toNat) : a = b :=
  Char.ext (UInt32.ext h)

theorem charsLeB_antisymm {a b : List Char} (h1 : charsLeB a b = true)
    (h2 : charsLeB b a = true) : a = b := by
  induction a generalizing b with
  | nil =>
    cases b with
    | nil => rfl
    | cons y ys => simp [charsLeB] at h2
  | cons x xs ih =>
    cases b with
    | nil => simp [charsLeB] at h1
    | cons y ys =>
      simp only [charsLeB] at h1 h2
      by_cases hxy : x.toNat < y.toNat <;> by_cases hyx : y.toNat < x.toNat <;>
        simp only [hxy, hyx, if_true, if_false] at h1 h2
      · omega
      · exact absurd h2 (by simp)
      · exact absurd h1 (by simp)
      · have hv : x = y := char_toNat_inj (by omega)
        subst hv
        exact congrArg (x :: ·) (ih h1 h2)

/-- Python string order as a relation, for sorting. -/
def strLeRel (a b : String) : Prop := pyLe a b = true

instance : DecidableRel strLeRel := fun a b => instDecidableEqBool (pyLe a b) true

instance : IsTotal String strLeRel :=
  ⟨fun a b => charsLeB_total a.data b.data⟩

instance : IsTrans String strLeRel :=
  ⟨fun _ _ _ h1 h2 => charsLeB_trans h1 h2⟩

instance : IsAntisymm String strLeRel :=
  ⟨fun _ _ h1 h2 => String.ext (charsLeB_antisymm h1 h2)⟩

/-- Python `sorted` on strings (code-point lexicographic, stable). -/
def pySorted (l : List String) : List String := List.insertionSort strLeRel l

/-- Canonical model of Python `sorted(set(l))`: duplicates removed, then
sorted.  Joins of unsorted Python sets are also canonicalised through this
(set-iteration order is a CPython implementation detail). -/
def sortedSet (l : List String) : List String := pySorted l.dedup

theorem mem_pySorted {x : String} {l : List String} : x ∈ pySorted l ↔ x ∈ l :=
  (List.perm_insertionSort strLeRel l).mem_iff

theorem mem_sortedSet {x : String} {l : List String} : x ∈ sortedSet l ↔ x ∈ l := by
  rw [sortedSet, mem_pySorted, List.mem_dedup]

/-- Two lists with the same members have the same `sortedSet`. -/
theorem sortedSet_eq_of_mem_iff {l1 l2 : List String}
    (h : ∀ x, x ∈ l1 ↔ x ∈ l2) : sortedSet l1 = sortedSet l2 := by
  apply List.eq_of_perm_of_sorted (r := strLeRel)
  · refine ((List.perm_insertionSort strLeRel l1.dedup).trans ?_).trans
      (List.perm_insertionSort strLeRel l2.dedup).symm
    rw [List.perm_ext_iff_of_nodup (List.nodup_dedup l1) (List.nodup_dedup l2)]
    intro a
    rw [List.mem_dedup, List.mem_dedup]
    exact h a
  · exact List.sorted_insertionSort strLeRel l1.dedup
  · exact List.sorted_insertionSort strLeRel l2.dedup

/-- Idempotence of `sortedSet`: re-sorting a sorted deduplicated list mixed
with its own members changes nothing. -/
theorem sortedSet_self_append {l : List String} :
    sortedSet (l ++ sortedSet l) = sortedSet l := by
  apply sortedSet_eq_of_mem_iff
  intro x
  simp [mem_sortedSet]

/-! ### Python `str.strip` -/

/-- Python `str.strip()` on the character list (whitespace from both ends). -/
def trimChars (l : List Char) : List Char :=
  ((l.dropWhile Char.isWhitespace).reverse.dropWhile Char.isWhitespace).reverse

/-- Python `str.strip()`. -/
def pyStrip (s : String) : String := String.mk (trimChars s.data)

theorem dropWhile_append_singleton {p : Char → Bool} {x : Char} (hx : ¬ p x = true) :
    ∀ ys : List Char, ∃ zs, List.dropWhile p (ys ++ [x]) = zs ++ [x] := by
  intro ys
  induction ys with
  | nil => exact ⟨[], by simp [List.dropWhile, hx]⟩
  | cons y ys ih =>
    by_cases hy : p y = true
    · obtain ⟨zs, hzs⟩ := ih
      exact ⟨zs, by simp [List.dropWhile, hy, hzs]⟩
    · exact ⟨y :: ys, by simp [List.dropWhile, hy]⟩

theorem dropWhile_head_cases (p : Char → Bool) (l : List Char) :
    List.dropWhile p l = [] ∨
      ∃ x xs, List.dropWhile p l = x :: xs ∧ ¬ p x = true := by
  induction l with
  | nil => left; rfl
  | cons y ys ih =>
    by_cases hy : p y = true
    · simpa [List.dropWhile, hy] using ih
    · right; exact ⟨y, ys, by simp [List.dropWhile, hy], hy⟩

theorem dropWhile_dropWhile (p : Char → Bool) (l : List Char) :
    List.dropWhile p (List.dropWhile p l) = List.dropWhile p l := by
  induction l with
  | nil => rfl
  | cons y ys ih =>
    by_cases hy : p y = true
    · simp [List.dropWhile_cons, hy, ih]
    · simp [List.dropWhile_cons, hy]

theorem trimChars_idem (l : List Char) : trimChars (trimChars l) = trimChars l := by
  unfold trimChars
  rcases dropWhile_head_cases Char.isWhitespace l with h | ⟨x, xs, h, hx⟩
  · simp [h]
  · rw [h]
    obtain ⟨zs, hzs⟩ := dropWhile_append_singleton hx xs.reverse
    rw [show (x :: xs).reverse = xs.reverse ++ [x] from by simp, hzs]
    rw [show (zs ++ [x]).reverse = x :: zs.reverse from by simp]
    rw [List.dropWhile_cons_of_neg hx]
    rw [show (x :: zs.reverse).reverse = zs ++ [x] from by simp]
    rw [← hzs, dropWhile_dropWhile, hzs]
    simp

theorem pyStrip_idem (s : String) : pyStrip (pyStrip s) = pyStrip s := by
  unfold pyStrip
  exact congrArg String.mk (trimChars_idem s.data)

/-! ### Python `str.split` / `sep.join` -/

/-- Fuel-driven worker for `splitOnSub` (structural recursion on the fuel so
that concrete evaluations reduce inside the kernel). -/
def splitOnSubFuel (sep : List Char) : Nat → List Char → List (List Char)
  | _, [] => [[]]
  | 0, l => [l]
  | fuel + 1, c :: rest =>
    if 0 < sep.length ∧ sep.isPrefixOf (c :: rest) then
      [] :: splitOnSubFuel sep fuel (rest.drop (sep.length - 1))
    else
      match splitOnSubFuel sep fuel rest with
      | [] => [[c]]
      | f :: fs => (c :: f) :: fs

/-- Split a character list on a (non-empty) separator substring, mirroring
Python `str.split(sep)` / `re.split` on one marker: every occurrence of the
separator ends a field, empty fields included. -/
def splitOnSub (sep l : List Char) : List (List Char) :=
  splitOnSubFuel sep l.length l

theorem splitOnSubFuel_congr (sep : List Char) :
    ∀ f1 f2 l, l.length ≤ f1 → l.length ≤ f2 →
      splitOnSubFuel sep f1 l = splitOnSubFuel sep f2 l := by
  intro f1
  induction f1 with
  | zero =>
    intro f2 l h1 _
    rcases List.length_eq_zero.mp (Nat.le_zero.mp h1) with rfl
    cases f2 <;> rfl
  | succ f ih =>
    intro f2 l h1 h2
    cases l with
    | nil => cases f2 <;> rfl
    | cons c rest =>
      cases f2 with
      | zero => simp at h2
      | succ f2' =>
        rw [splitOnSubFuel, splitOnSubFuel]
        by_cases h : 0 < sep.length ∧ sep.isPrefixOf (c :: rest) = true
        · rw [if_pos h, if_pos h]
          have hd : (rest.drop (sep.length - 1)).length ≤ f := by
            simp only [List.length_drop]
            simp only [List.length_cons] at h1
            omega
          have hd2 : (rest.drop (sep.length - 1)).length ≤ f2' := by
            simp only [List.length_drop]
            simp only [List.length_cons] at h2
            omega
          rw [ih f2' _ hd hd2]
        · rw [if_neg h, if_neg h]
          have hr : rest.length ≤ f := by
            simp only [List.length_cons] at h1; omega
          have hr2 : rest.length ≤ f2' := by
            simp only [List.length_cons] at h2; omega
          rw [ih f2' rest hr hr2]

theorem splitOnSubFuel_ne_nil (sep : List Char) :
    ∀ fuel l, splitOnSubFuel sep fuel l ≠ [] := by
  intro fuel
  induction fuel with
  | zero => intro l; cases l <;> simp [splitOnSubFuel]
  | succ f ih =>
    intro l
    cases l with
    | nil => simp [splitOnSubFuel]
    | cons c rest =>
      rw [splitOnSubFuel]
      by_cases h : 0 < sep.length ∧ sep.isPrefixOf (c :: rest) = true
      · rw [if_pos h]; simp
      · rw [if_neg h]
        rcases hs : splitOnSubFuel sep f rest with _ | ⟨f', fs⟩ <;> simp

theorem splitOnSub_ne_nil (sep l : List Char) : splitOnSub sep l ≠ [] :=
  splitOnSubFuel_ne_nil sep l.length l

/-- A character list avoiding a given character. -/
def charFree (ch : Char) (l : List Char) : Prop := ∀ c ∈ l, c ≠ ch

theorem splitOnSubFuel_of_charFree {h0 : Char} {sep : List Char} :
    ∀ {l : List Char} {fuel : Nat}, l.length ≤ fuel → charFree h0 l →
      splitOnSubFuel (h0 :: sep) fuel l = [l] := by
  intro l
  induction l with
  | nil => intro fuel _ _; cases fuel <;> rfl
  | cons c rest ih =>
    intro fuel hfuel hl
    cases fuel with
    | zero => simp at hfuel
    | succ f =>
      have hc : c ≠ h0 := hl c (by simp)
      have hnp : ¬ ((h0 :: sep).isPrefixOf (c :: rest) = true) := by
        intro hpre
        rw [List.isPrefixOf_iff_prefix] at hpre
        rcases List.cons_prefix_cons.mp hpre with ⟨heq, _⟩
        exact hc heq.symm
      rw [splitOnSubFuel, if_neg (fun hcontra => hnp hcontra.2)]
      rw [ih (by simp only [List.length_cons] at hfuel; omega)
        (fun x hx => hl x (by simp [hx]))]

/-- Splitting a list that avoids the separator's first character yields the
list as the single field. -/
theorem splitOnSub_of_charFree {h0 : Char} {sep : List Char} {l : List Char}
    (hl : charFree h0 l) : splitOnSub (h0 :: sep) l = [l] :=
  splitOnSubFuel_of_charFree (Nat.le_refl _) hl

theorem splitOnSubFuel_field_append {h0 : Char} {sep : List Char} {rest : List Char} :
    ∀ {fld : List Char} {fuel : Nat},
      (fld ++ (h0 :: sep) ++ rest).length ≤ fuel → charFree h0 fld →
      splitOnSubFuel (h0 :: sep) fuel (fld ++ (h0 :: sep) ++ rest) =
        fld :: splitOnSub (h0 :: sep) rest := by
  intro fld
  induction fld with
  | nil =>
    intro fuel hfuel _
    simp only [List.nil_append, List.length_cons, List.length_append] at hfuel
    cases fuel with
    | zero => omega
    | succ f =>
      have hpre : (h0 :: sep).isPrefixOf (h0 :: (sep ++ rest)) = true :=
        List.isPrefixOf_iff_prefix.mpr
          (List.cons_prefix_cons.mpr ⟨rfl, List.prefix_append sep rest⟩)
      rw [show ([] : List Char) ++ (h0 :: sep) ++ rest = h0 :: (sep ++ rest) from by simp]
      rw [splitOnSubFuel, if_pos ⟨by simp, hpre⟩]
      have hdrop : (sep ++ rest).drop ((h0 :: sep).length - 1) = rest := by
        simp [List.drop_left]
      rw [hdrop]
      rw [splitOnSubFuel_congr (h0 :: sep) f rest.length rest (by omega) (Nat.le_refl _)]
      rfl
  | cons c fld ih =>
    intro fuel hfuel hf
    simp only [List.cons_append, List.length_cons] at hfuel
    cases fuel with
    | zero => omega
    | succ f =>
      have hc : c ≠ h0 := hf c (by simp)
      have hnp : ¬ ((h0 :: sep).isPrefixOf (c :: (fld ++ (h0 :: sep) ++ rest)) = true) := by
        intro hpre
        rw [List.isPrefixOf_iff_prefix] at hpre
        rcases List.cons_prefix_cons.mp hpre with ⟨heq, _⟩
        exact hc heq.symm
      rw [show (c :: fld) ++ (h0 :: sep) ++ rest = c :: (fld ++ (h0 :: sep) ++ rest)
        from by simp]
      rw [splitOnSubFuel, if_neg (fun hcontra => hnp hcontra.2)]
      rw [ih (by simpa using Nat.le_of_succ_le_succ (by simpa using hfuel))
        (fun x hx => hf x (by simp [hx]))]

/-- Splitting `field ++ sep ++ rest` where the field avoids the separator's
first character peels off exactly that field. -/
theorem splitOnSub_field_append {h0 : Char} {sep : List Char} {fld rest : List Char}
    (hf : charFree h0 fld) :
    splitOnSub (h0 :: sep) (fld ++ (h0 :: sep) ++ rest) =
      fld :: splitOnSub (h0 :: sep) rest :=
  splitOnSubFuel_field_append (Nat.le_refl _) hf

/-- Python `sep.join(parts)` at the character level. -/
def joinWithChars (sep : List Char) : List (List Char) → List Char
  | [] => []
  | [x] => x
  | x :: xs => x ++ sep ++ joinWithChars sep xs

theorem splitOnSub_joinWithChars {h0 : Char} {sep : List Char}
    (parts : List (List Char)) (hne : parts ≠ [])
    (hfree : ∀ p ∈ parts, charFree h0 p) :
    splitOnSub (h0 :: sep) (joinWithChars (h0 :: sep) parts) = parts := by
  induction parts with
  | nil => exact absurd rfl hne
  | cons x xs ih =>
    cases xs with
    | nil =>
      rw [show joinWithChars (h0 :: sep) [x] = x from rfl]
      rw [splitOnSub_of_charFree (hfree x (by simp))]
    | cons y ys =>
      rw [show joinWithChars (h0 :: sep) (x :: y :: ys) =
            x ++ (h0 :: sep) ++ joinWithChars (h0 :: sep) (y :: ys) from rfl]
      rw [splitOnSub_field_append (hfree x (by simp))]
      rw [ih (by simp) (fun p hp => hfree p (by simp [hp]))]

/-- Python `str.split(sep)` (non-empty separator). -/
def pySplit (sep s : String) : List String :=
  (splitOnSub sep.data s.data).map String.mk

/-- Python `sep.join(parts)`. -/
def pyJoin (sep : String) (parts : List String) : String :=
  String.mk (joinWithChars sep.data (parts.map String.data))

theorem pySplit_pyJoin {h0 : Char} {tl : List Char} {sep : String}
    (hsep : sep.data = h0 :: tl) (parts : List String) (hne : parts ≠ [])
    (hfree : ∀ p ∈ parts, charFree h0 p.data) :
    pySplit sep (pyJoin sep parts) = parts := by
  unfold pySplit pyJoin
  rw [show (String.mk (joinWithChars sep.data (parts.map String.data))).data =
        joinWithChars sep.data (parts.map String.data) from rfl]
  rw [hsep]
  rw [splitOnSub_joinWithChars (parts.map String.data)
    (by simpa using hne)
    (by intro p hp
        rcases List.mem_map.mp hp with ⟨q, hq, rfl⟩
        exact hfree q hq)]
  rw [List.map_map]
  exact List.map_id'' (fun s => rfl) parts

/-- Python `str.lower()` (modelled per code point). -/
def pyLower (s : String) : String := String.mk (s.data.map Char.toLower)

/-- Python `str.replace(old, new)` (non-empty `old`), via split and join. -/
def pyReplace (s old new : String) : String :=
  String.mk (joinWithChars new.data ((splitOnSub old.data s.data).map id))

/-- Python truthiness of a string: non-empty. -/
def pyTruthy (s : String) : Bool := s ≠ ""

/-- Python `range(0, stop, step)` (empty when `step = 0`; CPython raises
there, and all call sites guarantee `step > 0`). -/
def pyRange (stop step : Nat) : List Nat :=
  if step = 0 then [] else (List.range ((stop + step - 1) / step)).map (· * step)

theorem pyRange_lt_stop {stop step x : Nat} (hx : x ∈ pyRange stop step) : x < stop := by
  unfold pyRange at hx
  by_cases hs : step = 0
  · simp [hs] at hx
  · rw [if_neg hs] at hx
    rcases List.mem_map.mp hx with ⟨i, hi, rfl⟩
    rw [List.mem_range] at hi
    have h1 : (i + 1) * step ≤ ((stop + step - 1) / step) * step := by
      exact Nat.mul_le_mul_right step hi
    have h2 : ((stop + step - 1) / step) * step ≤ stop + step - 1 :=
      Nat.div_mul_le_self (stop + step - 1) step
    have hstep : 0 < step := Nat.pos_of_ne_zero hs
    have h3 : i * step + step ≤ stop + step - 1 := by
      rw [← Nat.succ_mul]
      exact le_trans h1 h2
    omega

/-! ## Chunker (`operate.chunking_by_token_size`) -/

/-- Abstract tokenizer collaborator: token ids are naturals. -/
structure Tokenizer where
  encode : String → List Nat
  decode : List Nat → String

/-- One output record of the chunker. -/
structure Chunk where
  tokens : Nat
  content : String
  chunk_order_index : Nat
deriving DecidableEq, Repr

/-- Truthiness of the `split_by_character` argument (`if split_by_character:`). -/
def splitActive (sbc : Option String) : Bool :=
  match sbc with
  | some sep => pyTruthy sep
  | none => false

/-- `operate.chunking_by_token_size` (operate.py lines 53-105). -/
def chunking_by_token_size (tokenizer : Tokenizer) (content : String)
    (split_by_character : Option String) (split_by_character_only : Bool)
    (overlap_token_size : Nat) (max_token_size : Nat) : List Chunk :=
  let tokens := tokenizer.encode content
  if splitActive split_by_character then
    let sep := split_by_character.getD ""
    let raw_chunks := pySplit sep content
    let new_chunks : List (Nat × String) :=
      if split_by_character_only then
        raw_chunks.map (fun chunk => ((tokenizer.encode chunk).length, chunk))
      else
        raw_chunks.flatMap (fun chunk =>
          let toks := tokenizer.encode chunk
          if toks.length > max_token_size then
            (pyRange toks.length (max_token_size - overlap_token_size)).map
              (fun start =>
                (min max_token_size (toks.length - start),
                 tokenizer.decode ((toks.drop start).take max_token_size)))
          else
            [(toks.length, chunk)])
    new_chunks.enum.map (fun ip =>
      { tokens := ip.2.1, content := pyStrip ip.2.2, chunk_order_index := ip.1 })
  else
    (pyRange tokens.length (max_token_size - overlap_token_size)).enum.map
      (fun ip =>
        { tokens := min max_token_size (tokens.length - ip.2),
          content := pyStrip (tokenizer.decode ((tokens.drop ip.2).take max_token_size)),
          chunk_order_index := ip.1 })

/-- A one-token-per-code-point tokenizer used for concrete evaluations. -/
def charTokenizer : Tokenizer where
  encode s := s.data.map Char.toNat
  decode l := String.mk (l.map Char.ofNat)

/-- Claim C5 (as stated, over all three modes): FALSE.  In character-only
split mode (`split_by_character_only = True`) fragments are kept verbatim:
splitting `"abc"` on `","` with `max_token_size = 2`, `overlap = 1` keeps a
single chunk whose `tokens` field is `3 > 2`, although
`overlap_token_size < max_token_size` holds. -/
theorem C5_counterexample :
    (1 : Nat) < 2 ∧
    ¬ (∀ c ∈ chunking_by_token_size charTokenizer "abc" (some ",") true 1 2,
        c.tokens ≤ 2) := by
  constructor
  · decide
  · decide

/-- Claim C5 (amended): in pure token sliding mode and in character
pre-split mode (`split_by_character_only = False`), whenever
`overlap_token_size < max_token_size`, every chunk produced by
`chunking_by_token_size` has a `tokens` field of at most `max_token_size`;
the character-only mode keeps over-long fragments verbatim and is excluded. -/
theorem C5_amended (tokenizer : Tokenizer) (content : String)
    (split_by_character : Option String) (split_by_character_only : Bool)
    (overlap_token_size max_token_size : Nat)
    (hov : overlap_token_size < max_token_size)
    (honly : split_by_character_only = false) :
    ∀ c ∈ chunking_by_token_size tokenizer content split_by_character
        split_by_character_only overlap_token_size max_token_size,
      c.tokens ≤ max_token_size := by
  intro c hc
  unfold chunking_by_token_size at hc
  by_cases hsb : splitActive split_by_character = true
  · rw [if_pos hsb, honly] at hc
    simp only [Bool.false_eq_true, if_false] at hc
    rcases List.mem_map.mp hc with ⟨ip, hip, rfl⟩
    have hmem := List.snd_mem_of_mem_enum hip
    rcases List.mem_flatMap.mp hmem with ⟨fragment, _, hfrag⟩
    by_cases hlen : (tokenizer.encode fragment).length > max_token_size
    · rw [if_pos hlen] at hfrag
      rcases List.mem_map.mp hfrag with ⟨start, _, heq⟩
      rw [← heq]
      exact Nat.min_le_left _ _
    · rw [if_neg hlen] at hfrag
      have heq := List.mem_singleton.mp hfrag
      rw [heq]
      simpa using Nat.le_of_not_lt hlen
  · rw [if_neg hsb] at hc
    rcases List.mem_map.mp hc with ⟨ip, hip, rfl⟩
    exact Nat.min_le_left _ _

/-- Witness for `C5_amended` at a concrete input. -/
theorem C5_amended_witness :
    (1 : Nat) < 2 ∧
    (∀ c ∈ chunking_by_token_size charTokenizer "abc" none false 1 2,
      c.tokens ≤ 2) :=
  ⟨by decide, C5_amended charTokenizer "abc" none false 1 2 (by decide) rfl⟩

/-! ## Keyword extraction and `kg_query` (operate.py lines 1460-1739) -/

/-- `PROMPTS["fail_response"]` (prompt.py). -/
def fail_response : String :=
  "Sorry, I\x27m not able to provide an answer to that question.[no-context]"

/-- The keyword object parsed from the LLM JSON answer, after the
`dict.get` calls with their defaults (operate.py lines 1713-1715). -/
structure KwData where
  high_level_keywords : List String
  low_level_keywords : List String
  community : String
deriving DecidableEq, Repr

/-- What the Python function `extract_keywords_only` actually returns: a
2-tuple in its failure branches (operate.py lines 1706 and 1711) and a
3-tuple everywhere else. -/
inductive KwReturn where
  | pair (hl ll : List String) : KwReturn
  | triple (hl ll : List String) (community : String) : KwReturn
deriving DecidableEq, Repr

/-- One `save_to_cache` call. -/
structure CacheWrite where
  args_hash : String
  content : String
  prompt : String
  mode : String
  cache_type : String
deriving DecidableEq, Repr

/-- The subset of `QueryParam` (base.py) that the embedded query path
reads.  `user_profile` is collapsed to an optional opaque string. -/
structure QueryParam where
  mode : String
  hl_keywords : List String
  ll_keywords : List String
  only_need_context : Bool
  only_need_prompt : Bool
  user_profile : Option String
  response_type : String
  stream : Bool
deriving DecidableEq, Repr

/-- Oracles for the query path: the LLM collaborator, `json.loads` /
`json.dumps`, `compute_args_hash`, the cache lookup (`handle_cache`), and
the configuration flag guarding cache writes.  Prompt templating is
abstracted into the oracles (the claims do not inspect prompt text). -/
structure QueryEnv where
  kwLlmResponse : String → String
  llmQueryResponse : String → String → String
  jsonParse : String → Option KwData
  jsonDump : KwData → String
  computeArgsHash : List String → String
  cacheLookup : String → Option String
  enable_llm_cache : Bool
  personalize : String → String → String
  formatSysPrompt : String → QueryParam → String → String

/-- The regex `re.search(r"\{.*\}", result, re.DOTALL)`: greedy, so it
spans from the first opening brace to the last closing brace, provided the
closing brace comes after the opening one. -/
def extractJsonBraces (s : String) : Option String :=
  let ds := s.data
  let pre := ds.takeWhile (fun c => c ≠ '\x7b')
  if pre.length = ds.length then none
  else
    let rest := ds.drop pre.length
    let tailLen := (rest.reverse.takeWhile (fun c => c ≠ '\x7d')).length
    if tailLen = rest.length then none
    else some (String.mk (rest.take (rest.length - tailLen)))

/-- `operate.extract_keywords_only` (lines 1634-1739).  Returns the Python
return value together with the trace of cache writes. -/
def extract_keywords_only (env : QueryEnv) (text : String) (param : QueryParam) :
    KwReturn × List CacheWrite :=
  let args_hash := env.computeArgsHash [param.mode, text, "keywords"]
  let viaLlm : KwReturn × List CacheWrite :=
    let result := env.kwLlmResponse text
    match extractJsonBraces result with
    | none => (KwReturn.pair [] [], [])
    | some js =>
      match env.jsonParse js with
      | none => (KwReturn.pair [] [], [])
      | some kd =>
        let writes :=
          if (kd.high_level_keywords ≠ [] ∨ kd.low_level_keywords ≠ [] ∨
              kd.community ≠ "") ∧ env.enable_llm_cache = true then
            [{ args_hash := args_hash, content := env.jsonDump kd, prompt := text,
               mode := param.mode, cache_type := "keywords" : CacheWrite }]
          else []
        (KwReturn.triple kd.high_level_keywords kd.low_level_keywords kd.community,
         writes)
  match env.cacheLookup args_hash with
  | some cached =>
    match env.jsonParse cached with
    | some kd =>
      (KwReturn.triple kd.high_level_keywords kd.low_level_keywords kd.community, [])
    | none => viaLlm
  | none => viaLlm

/-- `operate.get_keywords_from_query` (lines 1602-1631).  The three-name
unpacking of the result raises a `ValueError` when the callee returns its
2-tuple failure value; the error is modelled in `Except`. -/
def get_keywords_from_query (env : QueryEnv) (query : String) (param : QueryParam) :
    Except String ((List String × List String × String) × List CacheWrite) :=
  if param.hl_keywords ≠ [] ∨ param.ll_keywords ≠ [] then
    Except.ok ((param.hl_keywords, param.ll_keywords, ""), [])
  else
    match extract_keywords_only env query param with
    | (KwReturn.triple hl ll comm, ws) => Except.ok ((hl, ll, comm), ws)
    | (KwReturn.pair _ _, _) =>
      Except.error "ValueError: not enough values to unpack (expected 3, got 2)"

/-- Python's post-processing of an echoing LLM response
(operate.py lines 1572-1581). -/
def cleanResponse (response sys_prompt query : String) : String :=
  pyStrip (pyReplace (pyReplace (pyReplace (pyReplace (pyReplace
    (pyReplace response sys_prompt "") "user" "") "model" "") query "")
    "<system>" "") "</system>" "")

/-- Result of `kg_query`: the returned value (`none` models Python `None`,
reachable through `only_need_context`), the `query_param` object as left
behind by the call (Python mutates it in place), the trace of cache
writes, and the modes passed to `_build_query_context`. -/
structure KgOut where
  result : Option String
  param : QueryParam
  cacheWrites : List CacheWrite
  contextModes : List String
deriving DecidableEq, Repr

/-- `operate.kg_query` (lines 1460-1599).  Context construction is the
oracle `buildContext` (returning `none` for Python `None`); the keyword
phase is the embedded `get_keywords_from_query`, whose `ValueError` on the
2-tuple failure value propagates. -/
def kg_query (env : QueryEnv) (buildContext : String → String → String → QueryParam → Option String)
    (query0 : String) (param : QueryParam) : Except String KgOut :=
  let query := match param.user_profile with
    | some up => env.personalize query0 up
    | none => query0
  let args_hash := env.computeArgsHash [param.mode, query, "query"]
  match env.cacheLookup args_hash with
  | some cached =>
    Except.ok { result := some cached, param := param, cacheWrites := [],
                contextModes := [] }
  | none =>
    match get_keywords_from_query env query param with
    | Except.error e => Except.error e
    | Except.ok ((hl_keywords, ll_keywords, community), kwWrites) =>
      if hl_keywords = [] ∧ ll_keywords = [] then
        Except.ok { result := some fail_response, param := param,
                    cacheWrites := kwWrites, contextModes := [] }
      else
        let param1 :=
          if ll_keywords = [] ∧ (param.mode = "local" ∨ param.mode = "hybrid") then
            { param with mode := "global" }
          else param
        let param2 :=
          if hl_keywords = [] ∧ (param1.mode = "global" ∨ param1.mode = "hybrid") then
            { param1 with mode := "local" }
          else param1
        let ll_str := if ll_keywords ≠ [] then pyJoin ", " ll_keywords else ""
        let hl_str := if hl_keywords ≠ [] then pyJoin ", " hl_keywords else ""
        let community_str := community
        let context := buildContext ll_str hl_str community_str param2
        if param2.only_need_context then
          Except.ok { result := context, param := param2, cacheWrites := kwWrites,
                      contextModes := [param2.mode] }
        else
          match context with
          | none =>
            Except.ok { result := some fail_response, param := param2,
                        cacheWrites := kwWrites, contextModes := [param2.mode] }
          | some ctxStr =>
            let sys_prompt := env.formatSysPrompt ctxStr param2 query
            if param2.only_need_prompt then
              Except.ok { result := some sys_prompt, param := param2,
                          cacheWrites := kwWrites, contextModes := [param2.mode] }
            else
              let response := env.llmQueryResponse query sys_prompt
              let response2 :=
                if sys_prompt.length < response.length then
                  cleanResponse response sys_prompt query
                else response
              let writes :=
                kwWrites ++
                  (if env.enable_llm_cache = true then
                    [{ args_hash := args_hash, content := response2, prompt := query,
                       mode := param2.mode, cache_type := "query" : CacheWrite }]
                  else [])
              Except.ok { result := some response2, param := param2,
                          cacheWrites := writes, contextModes := [param2.mode] }

/-- Environment whose keyword-extraction LLM answers contain no JSON
object, for concrete evaluation of the failure branch. -/
def noJsonEnv : QueryEnv where
  kwLlmResponse _ := "Les mots cles sont introuvables."
  llmQueryResponse _ _ := ""
  jsonParse _ := none
  jsonDump _ := ""
  computeArgsHash l := pyJoin "|" l
  cacheLookup _ := none
  enable_llm_cache := false
  personalize q _ := q
  formatSysPrompt c _ _ := c

/-- A query parameter with no preset keywords. -/
def noKwParam : QueryParam where
  mode := "hybrid"
  hl_keywords := []
  ll_keywords := []
  only_need_context := false
  only_need_prompt := false
  user_profile := none
  response_type := "Multiple Paragraphs"
  stream := false

/-- Claim C3: the claim is right and the code is wrong.  On an LLM response
with no JSON object, `extract_keywords_only` returns the bare 2-tuple
`([], [])` (operate.py line 1706) although its declared return type and
every success path produce a 3-tuple; `get_keywords_from_query` then
unpacks the result into three names (line 1628) and raises
`ValueError: not enough values to unpack`, so the caller fails instead of
completing with empty keyword lists. -/
theorem C3_code_bug :
    (extract_keywords_only noJsonEnv "Quelle est la situation" noKwParam).1 =
      KwReturn.pair [] [] ∧
    get_keywords_from_query noJsonEnv "Quelle est la situation" noKwParam =
      Except.error "ValueError: not enough values to unpack (expected 3, got 2)" := by
  constructor
  · rfl
  · rfl

/-- Claim C4: `kg_query` keyword-driven mode handling.  When the extracted
keyword phase reports both lists empty, the fixed `fail_response` is
returned and `_build_query_context` is never invoked; an empty low-level
list in `local`/`hybrid` mode demotes the mode to `global` before the
context is built; an empty high-level list in `global`/`hybrid` mode
demotes it to `local`. -/
theorem C4_kg_query_mode_handling (env : QueryEnv)
    (buildContext : String → String → String → QueryParam → Option String)
    (query : String) (param : QueryParam)
    (hl ll : List String) (comm : String) (ws : List CacheWrite)
    (hprofile : param.user_profile = none)
    (hcache : env.cacheLookup (env.computeArgsHash [param.mode, query, "query"]) = none)
    (hkw : get_keywords_from_query env query param = Except.ok ((hl, ll, comm), ws)) :
    (hl = [] → ll = [] →
      kg_query env buildContext query param =
        Except.ok { result := some fail_response, param := param,
                    cacheWrites := ws, contextModes := [] }) ∧
    (ll = [] → hl ≠ [] → (param.mode = "local" ∨ param.mode = "hybrid") →
      (kg_query env buildContext query param).map
          (fun out => (out.param.mode, out.contextModes)) =
        Except.ok ("global", ["global"])) ∧
    (hl = [] → ll ≠ [] → (param.mode = "global" ∨ param.mode = "hybrid") →
      (kg_query env buildContext query param).map
          (fun out => (out.param.mode, out.contextModes)) =
        Except.ok ("local", ["local"])) := by
  have hquery : (match param.user_profile with
      | some up => env.personalize query up
      | none => query) = query := by rw [hprofile]
  refine ⟨?_, ?_, ?_⟩
  · intro h1 h2
    subst h1; subst h2
    unfold kg_query
    rw [hquery]
    simp only [hcache, hkw]
    simp
  · intro hll hhl hmode
    subst hll
    unfold kg_query
    rw [hquery]
    simp only [hcache, hkw]
    simp only [hhl, hmode, ne_eq, not_false_eq_true, true_and, and_true, and_false,
      false_and, if_true, if_false, ite_true, ite_false, not_true, not_false_iff]
    cases hoc : param.only_need_context with
    | true => rfl
    | false =>
      simp only [Bool.false_eq_true, if_false]
      cases hctx : buildContext "" (pyJoin ", " hl) comm
          { param with mode := "global", only_need_context := false } with
      | none => rfl
      | some ctxStr =>
        cases hop : param.only_need_prompt with
        | true => rfl
        | false => rfl
  · intro hhl hll hmode
    subst hhl
    unfold kg_query
    rw [hquery]
    simp only [hcache, hkw]
    simp only [hll, hmode, ne_eq, not_false_eq_true, true_and, and_true, and_false,
      false_and, if_true, if_false, ite_true, ite_false, not_true, not_false_iff]
    cases hoc : param.only_need_context with
    | true => rfl
    | false =>
      simp only [Bool.false_eq_true, if_false]
      cases hctx : buildContext (pyJoin ", " ll) "" comm
          { param with mode := "local", only_need_context := false } with
      | none => rfl
      | some ctxStr =>
        cases hop : param.only_need_prompt with
        | true => rfl
        | false => rfl

/-- Environment for concrete keyword-phase evaluations: the keyword LLM
answers with a JSON object giving one high-level keyword and no low-level
keywords. -/
def kwWitnessEnv : QueryEnv where
  kwLlmResponse _ := "reponse \x7bJS\x7d fin"
  llmQueryResponse _ _ := "La reponse."
  jsonParse s :=
    if s = "\x7bJS\x7d" then
      some { high_level_keywords := ["strategie"], low_level_keywords := [],
             community := "" }
    else none
  jsonDump _ := "dump"
  computeArgsHash l := pyJoin "|" l
  cacheLookup _ := none
  enable_llm_cache := true
  personalize q _ := q
  formatSysPrompt c _ _ := c

/-- Witness for `C4_kg_query_mode_handling`: a hybrid-mode query whose
keyword extraction yields no low-level keywords is demoted to global. -/
theorem C4_kg_query_mode_handling_witness :
    (kg_query kwWitnessEnv (fun _ _ _ _ => some "CTX") "Quelle menace" noKwParam).map
        (fun out => (out.param.mode, out.contextModes)) =
      Except.ok ("global", ["global"]) :=
  (C4_kg_query_mode_handling kwWitnessEnv (fun _ _ _ _ => some "CTX") "Quelle menace"
      noKwParam ["strategie"] [] ""
      ((extract_keywords_only kwWitnessEnv "Quelle menace" noKwParam).2)
      rfl rfl rfl).2.1 rfl (by decide) (Or.inr rfl)

/-- Claim C10: `kg_query` mutates `query_param` in place.  When demotion
fires (hybrid mode, empty low-level keywords), the mode field the caller
sees after the call is the demoted `"global"`; the response cache entry is
nevertheless keyed by the hash computed from the original `"hybrid"` mode
(computed before demotion), while the entry's stored mode metadata records
the demoted `"global"`. -/
theorem C10_kg_query_mutation_and_cache_key (env : QueryEnv)
    (buildContext : String → String → String → QueryParam → Option String)
    (query : String) (param : QueryParam)
    (hl : List String) (comm : String) (ws : List CacheWrite) (ctxStr : String)
    (hprofile : param.user_profile = none)
    (hmode : param.mode = "hybrid")
    (hcache : env.cacheLookup (env.computeArgsHash ["hybrid", query, "query"]) = none)
    (hkw : get_keywords_from_query env query param = Except.ok ((hl, [], comm), ws))
    (hhl : hl ≠ [])
    (hoc : param.only_need_context = false)
    (hop : param.only_need_prompt = false)
    (hctx : buildContext "" (pyJoin ", " hl) comm
        { param with
          mode := "global", only_need_context := false, only_need_prompt := false } =
        some ctxStr)
    (hflag : env.enable_llm_cache = true) :
    ∃ content,
      kg_query env buildContext query param =
        Except.ok
          { result := some content,
            param := { param with
                       mode := "global", only_need_context := false,
                       only_need_prompt := false },
            cacheWrites := ws ++
              [{ args_hash := env.computeArgsHash ["hybrid", query, "query"],
                 content := content, prompt := query,
                 mode := "global", cache_type := "query" }],
            contextModes := ["global"] } := by
  have hquery : (match param.user_profile with
      | some up => env.personalize query up
      | none => query) = query := by rw [hprofile]
  unfold kg_query
  rw [hquery]
  simp only [hmode, hcache, hkw]
  simp [hhl, hoc, hop, hctx, hflag]

/-- Witness for `C10_kg_query_mutation_and_cache_key` at a concrete input. -/
theorem C10_kg_query_mutation_witness :
    ∃ content,
      kg_query kwWitnessEnv (fun _ _ _ _ => some "CTX") "Quelle menace" noKwParam =
        Except.ok
          { result := some content,
            param := { noKwParam with
                       mode := "global", only_need_context := false,
                       only_need_prompt := false },
            cacheWrites :=
              (extract_keywords_only kwWitnessEnv "Quelle menace" noKwParam).2 ++
                [{ args_hash :=
                     kwWitnessEnv.computeArgsHash ["hybrid", "Quelle menace", "query"],
                   content := content, prompt := "Quelle menace",
                   mode := "global", cache_type := "query" }],
            contextModes := ["global"] } :=
  C10_kg_query_mutation_and_cache_key kwWitnessEnv (fun _ _ _ _ => some "CTX")
    "Quelle menace" noKwParam ["strategie"] "" _ "CTX"
    rfl rfl rfl rfl (by decide) rfl rfl rfl rfl

/-! ## Multi-hop path collection (`operate._collect_multi_hop_paths`, lines 2711-2777) -/

/-- A path record as returned by the graph store's `multi_hop_paths` (or
parsed back from the cache).  Missing `path_strength` defaults to `0` and
missing `path_keywords` to `""`, matching the `dict.get` defaults. -/
structure PathRecord where
  path_entities : List String
  path_description : String
  path_keywords : String
  path_strength : ℚ
deriving DecidableEq, Repr

/-- A retrieved-entity context row; `entity_name` models
`ent.get("entity") or ent.get("entity_name")`, with `""` for a row where
both are missing or empty. -/
structure EntityCtx where
  entity_name : String
deriving DecidableEq, Repr

/-- The comma-separated path keywords, stripped and lowercased
(`set(k.strip().lower() for k in p["path_keywords"].split(","))`,
membership checked against the list of tokens). -/
def pathKwTokens (p : PathRecord) : List String :=
  (pySplit "," p.path_keywords).map (fun t => pyLower (pyStrip t))

/-- `rank_key` (operate.py lines 2768-2774).  `len(set(keywords) & kw_set)`
is the cardinality of the intersection, counted over the deduplicated
query keywords. -/
def rank_key (keywords : List String) (p : PathRecord) : ℚ :=
  if keywords ≠ [] ∧ p.path_keywords ≠ "" then
    p.path_strength +
      ((keywords.dedup.filter (fun k => k ∈ pathKwTokens p)).length : ℚ) * (1 / 10)
  else p.path_strength

/-- `operate._collect_multi_hop_paths`.  `getPaths` is the per-entity path
source covering both the cache hit (a parse failure yields `some []`) and
the live `multi_hop_paths` call; `none` models the exception branch that
logs a warning and skips the entity. -/
def collect_multi_hop_paths (getPaths : String → Option (List PathRecord))
    (entities_context : List EntityCtx) (top_k : Nat)
    (min_strength : ℚ) (keywords0 : List String) : List PathRecord :=
  let keywords := keywords0.map pyLower
  let paths := (entities_context.take top_k).flatMap (fun ent =>
    if ent.entity_name = "" then []
    else
      match getPaths ent.entity_name with
      | none => []
      | some res => res.filter (fun p => min_strength ≤ p.path_strength))
  (List.insertionSort (fun a b => rank_key keywords b ≤ rank_key keywords a) paths).take
    top_k

/-- Claim C6's ranking formula, written as the claim states it:
`path_strength + 0.1 × (number of query keywords present in the path's
comma-separated keyword list, compared case-insensitively)`. -/
def rankPerClaimC6 (keywords0 : List String) (p : PathRecord) : ℚ :=
  p.path_strength +
    ((((keywords0.map pyLower).dedup.filter (fun k => k ∈ pathKwTokens p)).length : ℚ))
      * (1 / 10)

/-- Claim C6's pipeline, written as the claim states it: gather the paths
of the first `top_k` entities, discard paths whose strength is below
`min_strength`, sort decreasingly by `rankPerClaimC6`, keep `top_k`. -/
def pipelinePerClaimC6 (getPaths : String → Option (List PathRecord))
    (entities_context : List EntityCtx) (top_k : Nat)
    (min_strength : ℚ) (keywords0 : List String) : List PathRecord :=
  let gathered := (entities_context.take top_k).flatMap (fun ent =>
    if ent.entity_name = "" then []
    else
      match getPaths ent.entity_name with
      | none => []
      | some res => res)
  let surviving := gathered.filter (fun p => ¬ p.path_strength < min_strength)
  (List.insertionSort
    (fun a b => rankPerClaimC6 keywords0 b ≤ rankPerClaimC6 keywords0 a) surviving).take
    top_k

theorem orderedInsert_congr {α : Type} (r1 r2 : α → α → Prop)
    [DecidableRel r1] [DecidableRel r2]
    (h : ∀ a b, r1 a b ↔ r2 a b) (x : α) :
    ∀ l, List.orderedInsert r1 x l = List.orderedInsert r2 x l := by
  intro l
  induction l with
  | nil => rfl
  | cons y ys ih =>
    by_cases hr : r1 x y
    · rw [List.orderedInsert, List.orderedInsert, if_pos hr, if_pos ((h x y).mp hr)]
    · rw [List.orderedInsert, List.orderedInsert, if_neg hr,
        if_neg (fun h2 => hr ((h x y).mpr h2)), ih]

theorem insertionSort_congr {α : Type} (r1 r2 : α → α → Prop)
    [DecidableRel r1] [DecidableRel r2]
    (h : ∀ a b, r1 a b ↔ r2 a b) :
    ∀ l, List.insertionSort r1 l = List.insertionSort r2 l := by
  intro l
  induction l with
  | nil => rfl
  | cons x xs ih =>
    rw [List.insertionSort, List.insertionSort, ih, orderedInsert_congr r1 r2 h]

theorem rank_key_eq_rankPerClaimC6 (keywords0 : List String) (p : PathRecord)
    (hkw : "" ∉ keywords0.map pyLower) :
    rank_key (keywords0.map pyLower) p = rankPerClaimC6 keywords0 p := by
  unfold rank_key rankPerClaimC6
  by_cases h1 : keywords0.map pyLower = []
  · rw [if_neg (by simp [h1])]
    rw [h1]
    simp
  · by_cases h2 : p.path_keywords = ""
    · rw [if_neg (by simp [h2])]
      have htok : pathKwTokens p = [""] := by
        unfold pathKwTokens
        rw [h2]
        rfl
      have hfilter : ((keywords0.map pyLower).dedup.filter
          (fun k => k ∈ pathKwTokens p)) = [] := by
        rw [htok]
        apply List.filter_eq_nil_iff.mpr
        intro k hk
        simp only [List.mem_singleton, decide_eq_true_eq]
        intro hcontra
        exact hkw (by rw [← hcontra]; exact List.mem_dedup.mp hk)
      rw [hfilter]
      simp
    · rw [if_pos ⟨h1, h2⟩]

/-- Claim C6: `_collect_multi_hop_paths` gathers paths only for the first
`top_k` entities, discards every path whose `path_strength` is below
`min_strength`, sorts the survivors in decreasing order of
`path_strength + 0.1 × (number of query keywords present in the path's
comma-separated keyword list, case-insensitively)`, and returns at most
`top_k` paths — provided no query keyword is the empty string. -/
theorem C6_collect_multi_hop_paths (getPaths : String → Option (List PathRecord))
    (entities_context : List EntityCtx) (top_k : Nat)
    (min_strength : ℚ) (keywords0 : List String)
    (hkw : "" ∉ keywords0.map pyLower) :
    collect_multi_hop_paths getPaths entities_context top_k min_strength keywords0 =
      pipelinePerClaimC6 getPaths entities_context top_k min_strength keywords0 := by
  unfold collect_multi_hop_paths pipelinePerClaimC6
  have hfilter : ((entities_context.take top_k).flatMap (fun ent =>
      if ent.entity_name = "" then []
      else
        match getPaths ent.entity_name with
        | none => []
        | some res => res)).filter (fun p => ¬ p.path_strength < min_strength) =
      (entities_context.take top_k).flatMap (fun ent =>
        if ent.entity_name = "" then []
        else
          match getPaths ent.entity_name with
          | none => []
          | some res => res.filter (fun p => min_strength ≤ p.path_strength)) := by
    rw [List.filter_flatMap]
    apply List.flatMap_congr
    intro ent _
    by_cases hname : ent.entity_name = ""
    · rw [if_pos hname, if_pos hname]
      rfl
    · rw [if_neg hname, if_neg hname]
      cases getPaths ent.entity_name with
      | none => rfl
      | some res =>
        apply List.filter_congr
        intro p _
        simp [not_lt]
  simp only [hfilter]
  rw [insertionSort_congr _ _
    (fun a b => by rw [rank_key_eq_rankPerClaimC6 keywords0 a hkw,
      rank_key_eq_rankPerClaimC6 keywords0 b hkw])]

/-- Witness for `C6_collect_multi_hop_paths` at a concrete input. -/
theorem C6_collect_multi_hop_paths_witness :
    ("" ∉ (["Menace"].map pyLower)) ∧
    collect_multi_hop_paths
        (fun n => if n = "Alpha" then
          some [{ path_entities := ["Alpha", "Beta"], path_description := "d",
                  path_keywords := "", path_strength := 1 }] else none)
        [{ entity_name := "Alpha" }] 2 0 ["Menace"] =
      pipelinePerClaimC6
        (fun n => if n = "Alpha" then
          some [{ path_entities := ["Alpha", "Beta"], path_description := "d",
                  path_keywords := "", path_strength := 1 }] else none)
        [{ entity_name := "Alpha" }] 2 0 ["Menace"] :=
  ⟨by decide,
   C6_collect_multi_hop_paths _ _ 2 0 ["Menace"] (by decide)⟩

/-! ## Deep-search tree-of-thought controller (deepsearch.py) -/

/-- A tree-of-thought node (`deepsearch.ToTNode`). -/
structure ToTNode where
  question : String
  answer : Option String
  depth : Nat
  children : List ToTNode

/-- Deterministic oracles for the deep-search LLM calls: the depth answer,
the parsed sub-query list (`_parse_json` of `_generate_subqueries`), the
parsed follow-up list, the per-question answer, and the thought score. -/
structure DeepSearchEnv where
  depthResponse : String
  subqueries : String → List String
  followups : String → String → List String
  answerOf : String → String
  score : String → String → ℚ

/-- Decimal digits to a natural number; `none` on a non-digit or on the
empty string. -/
def digitsToNat : List Char → Option Nat
  | [] => none
  | l =>
    l.foldl
      (fun acc c =>
        match acc with
        | none => none
        | some n => if c.isDigit then some (n * 10 + (c.toNat - 48)) else none)
      (some 0)

/-- Python `int(s.strip())` for decimal integer strings (optional sign). -/
def pyParseInt (s : String) : Option Int :=
  match (pyStrip s).data with
  | '-' :: rest => (digitsToNat rest).map (fun n => -(n : Int))
  | '+' :: rest => (digitsToNat rest).map (fun n => (n : Int))
  | ds => (digitsToNat ds).map (fun n => (n : Int))

/-- Python `str.split()` with no separator: whitespace runs, no empties. -/
def pyWords (s : String) : List String :=
  ((s.data.splitOnP Char.isWhitespace).filter (· ≠ [])).map String.mk

/-- `deepsearch._determine_depth` (lines 32-54): parse the LLM integer,
clamp to `[1, 4]`; on failure fall back to 2 for queries longer than 10
words, else 1. -/
def _determine_depth (env : DeepSearchEnv) (query : String) : Nat :=
  match pyParseInt env.depthResponse with
  | some d => (max 1 (min 4 d)).toNat
  | none => if 10 < (pyWords query).length then 2 else 1

/-- `deepsearch._generate_subqueries` result: the parsed list, or the query
itself when the parse yields an empty list (`... or [query]`). -/
def _generate_subqueries (env : DeepSearchEnv) (query : String) : List String :=
  if env.subqueries query = [] then [query] else env.subqueries query

/-- `deepsearch._select_thoughts` (lines 124-134): when more thoughts than
`top_k`, score each, sort decreasingly (stably) and keep the first
`top_k`. -/
def _select_thoughts (env : DeepSearchEnv) (thoughts : List String)
    (context : String) (top_k : Nat) : List String :=
  if thoughts.length ≤ top_k then thoughts
  else
    ((List.insertionSort (fun a b : String × ℚ => b.2 ≤ a.2)
      (thoughts.map (fun t => (t, env.score t context)))).take top_k).map (fun e => e.1)

/-- Expansion of one answered node of the BFS loop (deepsearch.py lines
211-239), with fuel for structural recursion; every reachable call has
positive fuel.  The BFS queue order does not affect the produced tree
because the oracles are deterministic functions of each node's own data. -/
def buildChild (env : DeepSearchEnv) (maxDepth maxFollow : Nat) :
    Nat → Nat → String → ToTNode
  | 0, depth, q =>
    { question := q, answer := some (env.answerOf q), depth := depth, children := [] }
  | fuel + 1, depth, q =>
    let answer := env.answerOf q
    let children :=
      if depth < maxDepth then
        let cq := env.followups q answer
        let selected :=
          _select_thoughts env cq (q ++ "\n\n" ++ answer) (min maxFollow cq.length)
        selected.map (fun c => buildChild env maxDepth maxFollow fuel (depth + 1) c)
      else []
    { question := q, answer := some answer, depth := depth, children := children }

/-- The whole tree produced by `deepsearch_query`'s BFS loop (lines
198-239): depth selection, adaptive `MAX_INITIAL`/`MAX_FOLLOW`, root
expansion by sub-queries, then per-node follow-up expansion. -/
def deepsearchTree (env : DeepSearchEnv) (query : String) : ToTNode :=
  let MAX_DEPTH := _determine_depth env query
  let MAX_INITIAL := max 2 (min 4 MAX_DEPTH)
  let MAX_FOLLOW := max 1 (min 3 (MAX_DEPTH - 1))
  let children :=
    if 0 < MAX_DEPTH then
      let cq := _generate_subqueries env query
      let selected := _select_thoughts env cq query (min MAX_INITIAL cq.length)
      selected.map (fun q => buildChild env MAX_DEPTH MAX_FOLLOW MAX_DEPTH 1 q)
    else []
  { question := query, answer := none, depth := 0, children := children }

mutual
/-- Number of answered questions collected into the report: the nodes of
depth ≥ 1 (deepsearch.py lines 241-249). -/
def countAnswered : ToTNode → Nat
  | ⟨_, _, d, children⟩ => (if 0 < d then 1 else 0) + countAnsweredList children
/-- Sum of `countAnswered` over a list of nodes. -/
def countAnsweredList : List ToTNode → Nat
  | [] => 0
  | n :: ns => countAnswered n + countAnsweredList ns
end

theorem countAnsweredList_le {B : Nat} :
    ∀ {l : List ToTNode}, (∀ n ∈ l, countAnswered n ≤ B) →
      countAnsweredList l ≤ l.length * B := by
  intro l
  induction l with
  | nil => intro _; simp [countAnsweredList]
  | cons n ns ih =>
    intro h
    rw [countAnsweredList]
    have h1 : countAnswered n ≤ B := h n (by simp)
    have h2 : countAnsweredList ns ≤ ns.length * B := ih (fun m hm => h m (by simp [hm]))
    simp only [List.length_cons]
    calc countAnswered n + countAnsweredList ns ≤ B + ns.length * B := by omega
      _ = (ns.length + 1) * B := by ring

theorem select_thoughts_length (env : DeepSearchEnv) (thoughts : List String)
    (context : String) (top_k : Nat) :
    (_select_thoughts env thoughts context top_k).length = min thoughts.length top_k := by
  unfold _select_thoughts
  by_cases h : thoughts.length ≤ top_k
  · rw [if_pos h]
    omega
  · rw [if_neg h]
    have hlen : (List.insertionSort (fun a b : String × ℚ => b.2 ≤ a.2)
        (thoughts.map (fun t => (t, env.score t context)))).length = thoughts.length := by
      rw [(List.perm_insertionSort _ _).length_eq, List.length_map]
    rw [List.length_map, List.length_take, hlen]
    omega

theorem buildChild_count_le (env : DeepSearchEnv) (fuel : Nat) :
    ∀ depth q, 1 ≤ depth → depth ≤ 3 →
      countAnswered (buildChild env 3 2 fuel depth q) ≤ 2 ^ (4 - depth) - 1 := by
  induction fuel with
  | zero =>
    intro depth q h1 h3
    rw [buildChild, countAnswered]
    simp only [countAnsweredList, if_pos (by omega : 0 < depth)]
    have : 2 ≤ 2 ^ (4 - depth) := by
      have : 1 ≤ 4 - depth := by omega
      calc 2 = 2 ^ 1 := by norm_num
        _ ≤ 2 ^ (4 - depth) := Nat.pow_le_pow_right (by norm_num) this
    omega
  | succ f ih =>
    intro depth q h1 h3
    rw [buildChild, countAnswered]
    simp only [if_pos (by omega : 0 < depth)]
    by_cases hd : depth < 3
    · rw [if_pos hd]
      have hchild : ∀ n ∈ (_select_thoughts env (env.followups q (env.answerOf q))
          (q ++ "\n\n" ++ env.answerOf q)
          (min 2 (env.followups q (env.answerOf q)).length)).map
            (fun c => buildChild env 3 2 f (depth + 1) c),
          countAnswered n ≤ 2 ^ (4 - (depth + 1)) - 1 := by
        intro n hn
        rcases List.mem_map.mp hn with ⟨c, _, rfl⟩
        exact ih (depth + 1) c (by omega) (by omega)
      have hlen : ((_select_thoughts env (env.followups q (env.answerOf q))
          (q ++ "\n\n" ++ env.answerOf q)
          (min 2 (env.followups q (env.answerOf q)).length)).map
            (fun c => buildChild env 3 2 f (depth + 1) c)).length ≤ 2 := by
        rw [List.length_map, select_thoughts_length]
        omega
      have hsum := countAnsweredList_le hchild
      have hpow : 2 ^ (4 - depth) = 2 * 2 ^ (4 - (depth + 1)) := by
        have h4 : 4 - depth = (4 - (depth + 1)) + 1 := by omega
        rw [h4, pow_succ]
        ring
      have hge : 1 ≤ 2 ^ (4 - (depth + 1)) := Nat.one_le_two_pow
      have : countAnsweredList ((_select_thoughts env (env.followups q (env.answerOf q))
          (q ++ "\n\n" ++ env.answerOf q)
          (min 2 (env.followups q (env.answerOf q)).length)).map
            (fun c => buildChild env 3 2 f (depth + 1) c)) ≤
          2 * (2 ^ (4 - (depth + 1)) - 1) := by
        calc _ ≤ _ := hsum
          _ ≤ 2 * (2 ^ (4 - (depth + 1)) - 1) := by
            apply Nat.mul_le_mul_right
            exact hlen
      omega
    · rw [if_neg hd]
      simp only [countAnsweredList]
      have : 2 ≤ 2 ^ (4 - depth) := by
        have h4 : 1 ≤ 4 - depth := by omega
        calc 2 = 2 ^ 1 := by norm_num
          _ ≤ 2 ^ (4 - depth) := Nat.pow_le_pow_right (by norm_num) h4
      omega

/-- An LLM behaviour for deep search: depth answer `"3"`, three parsed
sub-queries, two follow-ups per question. -/
def deepEnv3 : DeepSearchEnv where
  depthResponse := "3"
  subqueries _ := ["q1", "q2", "q3"]
  followups _ _ := ["f1", "f2"]
  answerOf _ := "a"
  score _ _ := 0

/-- Claim C8 (as stated): FALSE.  With the depth LLM answering `"3"`,
`MAX_INITIAL = max(2, min(4, 3)) = 3`, so the root can take three
sub-queries, not two: a behaviour returning three sub-queries and two
follow-ups everywhere answers `3 + 3·2 + 3·2·2 = 21 > 14` questions. -/
theorem C8_counterexample :
    countAnswered (deepsearchTree deepEnv3 "Quelles implications regionales") = 21 ∧
    ¬ countAnswered (deepsearchTree deepEnv3 "Quelles implications regionales") ≤ 14 := by
  constructor
  · decide
  · decide

/-- Claim C8 (amended): when the depth-selection LLM call returns the
integer `"3"` (max depth 3), a deep-search run answers at most
`3 + 3·2 + 3·2·2 = 21` questions — `MAX_INITIAL = max(2, min(4, 3)) = 3`
initial sub-queries, then at most `MAX_FOLLOW = 2` follow-ups per answered
node — for every behaviour of the sub-query and follow-up LLM calls. -/
theorem C8_amended (env : DeepSearchEnv) (query : String)
    (hresp : env.depthResponse = "3") :
    countAnswered (deepsearchTree env query) ≤ 21 := by
  have hdepth : _determine_depth env query = 3 := by
    unfold _determine_depth
    rw [hresp]
    rfl
  unfold deepsearchTree
  rw [hdepth]
  simp only [show max 2 (min 4 3) = 3 from rfl, show max 1 (min 3 (3 - 1)) = 2 from rfl,
    show (0 < 3) = True from by simp, if_true]
  rw [countAnswered]
  simp only [show ¬ (0 : Nat) < 0 from by omega, if_false]
  have hchild : ∀ n ∈ (_select_thoughts env (_generate_subqueries env query) query
      (min 3 (_generate_subqueries env query).length)).map
        (fun q => buildChild env 3 2 3 1 q),
      countAnswered n ≤ 7 := by
    intro n hn
    rcases List.mem_map.mp hn with ⟨c, _, rfl⟩
    have := buildChild_count_le env 3 1 c (by omega) (by omega)
    simpa using this
  have hlen : ((_select_thoughts env (_generate_subqueries env query) query
      (min 3 (_generate_subqueries env query).length)).map
        (fun q => buildChild env 3 2 3 1 q)).length ≤ 3 := by
    rw [List.length_map, select_thoughts_length]
    omega
  have hsum := countAnsweredList_le hchild
  have : countAnsweredList ((_select_thoughts env (_generate_subqueries env query) query
      (min 3 (_generate_subqueries env query).length)).map
        (fun q => buildChild env 3 2 3 1 q)) ≤ 21 := by
    calc _ ≤ _ := hsum
      _ ≤ 3 * 7 := Nat.mul_le_mul_right 7 hlen
      _ = 21 := by norm_num
  omega

/-- Witness for `C8_amended` at a concrete behaviour. -/
theorem C8_amended_witness :
    deepEnv3.depthResponse = "3" ∧
    countAnswered (deepsearchTree deepEnv3 "Analyse de la crise") ≤ 21 :=
  ⟨rfl, C8_amended deepEnv3 "Analyse de la crise" rfl⟩

/-! ## Merge & upsert engine (operate.py lines 227-1192)

The graph store is an association list of nodes and (canonically keyed)
undirected edges, plus two ghost traces: every `upsert_edge` endpoint pair
and every warning log.  The LLM, geocoder, hash, `multi_hop_paths` and
community-detection collaborators are oracle functions. -/

/-- `prompt.GRAPH_FIELD_SEP`. -/
def GRAPH_FIELD_SEP : String := "<SEP>"

/-- `constants.MAX_VECTOR_CONTENT_LENGTH`. -/
def MAX_VECTOR_CONTENT_LENGTH : Nat := 65000

/-- Modelled from the spec: `utils.split_string_by_multi_markers` is not
under src/; §4.B and §4.E only require splitting stored strings on the
reserved separator, so a single-marker plain split is used. -/
def split_string_by_multi_markers (s : String) (marker : String) : List String :=
  pySplit marker s

/-- Modelled from the spec: `utils.standardize_entity_name` is not under
src/; §4.B describes it as entity-name canonicalisation.  Modelled as
whitespace trimming (in particular it is idempotent, as any
canonicalisation is). -/
def standardize_entity_name (s : String) : String := pyStrip s

/-- Modelled from the spec: `utils.clean_str` is not under src/; §4.B says
"trim quotes, collapse whitespace".  Modelled as whitespace trimming plus
removal of one layer of surrounding double quotes. -/
def clean_str (s : String) : String :=
  let t := pyStrip s
  match t.data with
  | '"' :: rest =>
    if rest ≠ [] ∧ rest.getLast? = some '"' then String.mk rest.dropLast else t
  | _ => t

/-- Modelled from the spec: `utils.normalize_extracted_info` is not under
src/; §4.B describes whitespace/quote normalisation of extracted fields.
Modelled as whitespace trimming. -/
def normalize_extracted_info (s : String) (_is_entity : Bool) : String := pyStrip s

/-- Substring containment (Python `sub in s`) for a non-empty `sub`. -/
def strContains (s sub : String) : Bool :=
  1 < (splitOnSub sub.data s.data).length

/-- An extracted entity record (`_handle_single_entity_extraction` output). -/
structure EntityRecord where
  entity_name : String
  entity_type : String
  description : String
  additional_properties : String
  entity_community : String
  source_id : String
  file_path : String
deriving DecidableEq, Repr

/-- An extracted relationship / latent-relation record. -/
structure EdgeRecord where
  src_id : String
  tgt_id : String
  weight : ℚ
  description : String
  keywords : String
  latent : Bool := false
  source_id : String
  file_path : String
deriving DecidableEq, Repr

/-- An extracted association record. -/
structure AssocRecord where
  entities : List String
  description : String
  generalization : String
  keywords : String
  strength : ℚ
  source_id : String
  file_path : String
deriving DecidableEq, Repr

/-- An extracted multi-hop record. -/
structure MultiHopRecord where
  path_entities : List String
  path_description : String
  path_keywords : String
  path_strength : ℚ
  source_id : String
  file_path : String
deriving DecidableEq, Repr

/-- A stored graph node.  Python nodes are dicts with per-site key sets;
fields absent from every write site of a node kind are `Option`-valued
(`none` = missing key), the rest default to sentinels never read. -/
structure NodeData where
  entity_id : String
  entity_type : String
  description : String
  additional_properties : Option String := none
  entity_community : Option String := none
  keywords : String := ""
  strength : ℚ := 0
  entities : String := ""
  path : String := ""
  source_id : String
  file_path : String
  created_at : Nat
deriving DecidableEq, Repr

/-- A stored graph edge. -/
structure EdgeData where
  weight : ℚ
  description : String
  keywords : String
  latent : Bool := false
  source_id : String
  file_path : String
  created_at : Nat
deriving DecidableEq, Repr

/-- Association-list lookup. -/
def alistGet {α β : Type} [DecidableEq α] (l : List (α × β)) (k : α) : Option β :=
  match l with
  | [] => none
  | (k', v) :: rest => if k' = k then some v else alistGet rest k

/-- Association-list upsert: replace in place, else append. -/
def alistUpsert {α β : Type} [DecidableEq α] (l : List (α × β)) (k : α) (v : β) :
    List (α × β) :=
  match l with
  | [] => [(k, v)]
  | (k', v') :: rest =>
    if k' = k then (k, v) :: rest else (k', v') :: alistUpsert rest k v

/-- Extend the value list of a key (Python `defaultdict(list)` extension),
preserving first-occurrence key order. -/
def alistExtend {α β : Type} [DecidableEq α] (l : List (α × List β)) (k : α)
    (vs : List β) : List (α × List β) :=
  match l with
  | [] => [(k, vs)]
  | (k', vs') :: rest =>
    if k' = k then (k', vs' ++ vs) :: rest else (k', vs') :: alistExtend rest k vs

/-- Canonical (sorted) key of an undirected edge. -/
def edgeKey (a b : String) : String × String :=
  if pyLe a b then (a, b) else (b, a)

/-- `tuple(sorted(edge_key))` (operate.py line 960). -/
def sortPair (p : String × String) : String × String := edgeKey p.1 p.2

/-- The knowledge-graph store state, with ghost traces of the edge
endpoints passed to `upsert_edge` and of the warning log. -/
structure KGraph where
  nodes : List (String × NodeData)
  edges : List ((String × String) × EdgeData)
  edgeWriteTrace : List (String × String)
  warnings : List String
deriving DecidableEq, Repr

def getNode (g : KGraph) (id : String) : Option NodeData := alistGet g.nodes id

def hasNode (g : KGraph) (id : String) : Bool := (getNode g id).isSome

def upsertNode (g : KGraph) (id : String) (nd : NodeData) : KGraph :=
  { g with nodes := alistUpsert g.nodes id nd }

def getEdge (g : KGraph) (a b : String) : Option EdgeData :=
  alistGet g.edges (edgeKey a b)

/-- `upsert_edge`.  The backend (NetworkX `add_edge`) merges attribute
dicts; the only key written by some sites but not others is `latent`, so a
write without that key keeps a pre-existing `latent` value
(`withLatentKey = false`). -/
def upsertEdge (g : KGraph) (a b : String) (ed : EdgeData) (withLatentKey : Bool) :
    KGraph :=
  let key := edgeKey a b
  let ed' :=
    match alistGet g.edges key with
    | some old => if withLatentKey then ed else { ed with latent := old.latent }
    | none => ed
  { g with edges := alistUpsert g.edges key ed',
           edgeWriteTrace := g.edgeWriteTrace ++ [(a, b)] }

def warn (g : KGraph) (msg : String) : KGraph :=
  { g with warnings := g.warnings ++ [msg] }

/-- The configuration keys read by the merge path. -/
structure GlobalConfig where
  force_llm_summary_on_merge : Nat := 6
  enable_association : Bool := true
  enable_multi_hop : Bool := true
  enable_community_detection : Bool := false
  enable_description_enrichment : Bool := false
  enable_geo_enrichment : Bool := false
deriving DecidableEq, Repr

/-- A geocoder answer (`utils.get_location_info`), `none` covering both an
exception and an `error` payload. -/
structure GeoInfo where
  pays : Option String
  region : Option String
  province : Option String
  departement : Option String
  commune : Option String
  latitude : String
  longitude : String

/-- Oracles and configuration for the merge path.  `hashFn` models the
md5 hex digest inside `compute_mdhash_id`; `multiHopPathsFn` models
`knowledge_graph_inst.multi_hop_paths` on the current graph (`none` = the
call raised); `now` models `int(time.time())` for the call. -/
structure MergeEnv where
  config : GlobalConfig
  summaryLLM : String → String → String
  enrichLLM : String → String → String
  geoLookup : String → Option GeoInfo
  multiHopPathsFn : KGraph → String → Option (List PathRecord)
  detectCommunitiesFn : KGraph → List (String × String)
  hashFn : String → String
  now : Nat
  hasEntityVdb : Bool
  hasRelationshipsVdb : Bool

/-- Python `s.strip(c)` for one character (both ends). -/
def pyStripChar (c : Char) (s : String) : String :=
  String.mk (((s.data.dropWhile (· = c)).reverse.dropWhile (· = c)).reverse)

/-- `operate._handle_single_entity_extraction` (lines 227-279), returning
the parsed record (or `None`) together with the warnings logged. -/
def _handle_single_entity_extraction (record_attributes : List String)
    (chunk_key : String) (file_path : String) :
    Option EntityRecord × List String :=
  if record_attributes.length < 6 ∨
      strContains (record_attributes.getD 0 "") "\"entity\"" = false then
    (none, [])
  else
    let entity_name0 := pyStrip (clean_str (record_attributes.getD 1 ""))
    if entity_name0 = "" then
      (none, ["Entity extraction error: empty entity name"])
    else
      let entity_name :=
        standardize_entity_name (normalize_extracted_info entity_name0 true)
      let entity_type := pyStripChar '"' (clean_str (record_attributes.getD 2 ""))
      if pyStrip entity_type = "" ∨
          ['(', '"'].isPrefixOf entity_type.data then
        (none, ["Entity extraction error: invalid entity type"])
      else
        let entity_description :=
          normalize_extracted_info (clean_str (record_attributes.getD 3 "")) false
        let additional_properties :=
          normalize_extracted_info (clean_str (record_attributes.getD 4 "")) false
        let entity_community0 :=
          normalize_extracted_info (clean_str (record_attributes.getD 5 "")) false
        let entity_community :=
          if entity_community0 = "" then "inconnue" else entity_community0
        if pyStrip entity_description = "" then
          (none, ["Entity extraction error: empty description for entity " ++
                  entity_name])
        else
          (some { entity_name := entity_name, entity_type := entity_type,
                  description := entity_description,
                  additional_properties := additional_properties,
                  entity_community := entity_community,
                  source_id := chunk_key, file_path := file_path }, [])

/-- First-occurrence deduplication (Python dict insertion order). -/
def firstOccurList (l : List String) : List String :=
  l.foldl (fun acc x => if x ∈ acc then acc else acc ++ [x]) []

/-- `sorted(Counter(l).items(), key=count, reverse=True)[0][0]`: the most
frequent element, earliest first occurrence winning ties (Python's sort is
stable, also with `reverse=True`).  CPython raises `IndexError` on an
empty list; every call site passes a non-empty one, and `""` is returned
here. -/
def mostCommonFirst (l : List String) : String :=
  let items := (firstOccurList l).map (fun k => (k, (l.filter (· = k)).length))
  match List.insertionSort (fun a b : String × Nat => b.2 ≤ a.2) items with
  | [] => ""
  | (k, _) :: _ => k

/-- `operate._merge_nodes_then_upsert` (lines 430-615). -/
def _merge_nodes_then_upsert (env : MergeEnv) (g0 : KGraph) (entity_name0 : String)
    (nodes_data : List EntityRecord) : KGraph × Option NodeData :=
  let entity_name := standardize_entity_name entity_name0
  let already := getNode g0 entity_name
  let already_entity_types := match already with
    | some n => [n.entity_type]
    | none => []
  let already_source_ids := match already with
    | some n =>
      if n.source_id ≠ "" then split_string_by_multi_markers n.source_id GRAPH_FIELD_SEP
      else []
    | none => []
  let already_file_paths := match already with
    | some n =>
      if n.file_path ≠ "" then split_string_by_multi_markers n.file_path GRAPH_FIELD_SEP
      else []
    | none => []
  let already_description := match already with
    | some n => [n.description]
    | none => []
  let already_additional_properties := match already with
    | some n => match n.additional_properties with | some v => [v] | none => []
    | none => []
  let already_entity_communities := match already with
    | some n => match n.entity_community with | some v => [v] | none => []
    | none => []
  let entity_type :=
    mostCommonFirst ((nodes_data.map (·.entity_type)) ++ already_entity_types)
  let description :=
    pyJoin GRAPH_FIELD_SEP
      (sortedSet ((nodes_data.map (·.description)) ++ already_description))
  if pyStrip description = "" then
    (warn g0 ("Skip inserting node " ++ entity_name ++ " due to empty description"),
     none)
  else
    let source_id :=
      pyJoin GRAPH_FIELD_SEP
        (sortedSet (((nodes_data.map (·.source_id)).filter (· ≠ "")) ++
          already_source_ids))
    let file_path :=
      pyJoin GRAPH_FIELD_SEP
        (sortedSet (((nodes_data.map (·.file_path)).filter (· ≠ "")) ++
          already_file_paths))
    if source_id = "" ∧ file_path = "" then
      (warn g0 ("Skip inserting node " ++ entity_name ++
        " due to missing source_id and file_path"), none)
    else
      let additional_properties :=
        pyJoin GRAPH_FIELD_SEP
          (sortedSet ((nodes_data.map (·.additional_properties)) ++
            already_additional_properties))
      let description1 :=
        if env.config.enable_description_enrichment then
          env.enrichLLM entity_name description
        else description
      let geo :=
        if pyLower entity_type = "géographie" ∧ env.config.enable_geo_enrichment then
          env.geoLookup entity_name
        else none
      let description2 :=
        match geo with
        | some gi =>
          let loc_desc :=
            pyJoin "/"
              (([gi.pays, gi.region, gi.province, gi.departement, gi.commune].filterMap
                  id).filter (· ≠ ""))
          if loc_desc ≠ "" then
            description1 ++ " (" ++ loc_desc ++ ":Latitude: " ++ gi.latitude ++
              " | Longitude: " ++ gi.longitude ++ ")"
          else description1
        | none => description1
      let additional_properties1 :=
        match geo with
        | some gi =>
          let gps_info := entity_name ++ " | Latitude: " ++ gi.latitude ++
            " | Longitude: " ++ gi.longitude
          if additional_properties ≠ "" then
            additional_properties ++ GRAPH_FIELD_SEP ++ gps_info
          else gps_info
        | none => additional_properties
      let entity_community :=
        pyJoin GRAPH_FIELD_SEP
          (sortedSet ((nodes_data.map (·.entity_community)) ++
            already_entity_communities))
      let num_fragment := (pySplit GRAPH_FIELD_SEP description2).length
      let description3 :=
        if 1 < num_fragment ∧ env.config.force_llm_summary_on_merge ≤ num_fragment then
          env.summaryLLM entity_name description2
        else description2
      let node_data : NodeData :=
        { entity_id := entity_name, entity_type := entity_type,
          description := description3,
          additional_properties := some additional_properties1,
          entity_community := some entity_community,
          source_id := source_id, file_path := file_path, created_at := env.now }
      (upsertNode g0 entity_name node_data, some node_data)

/-- The record returned by `_merge_edges_then_upsert` (it deliberately has
no `weight` field, operate.py lines 776-784). -/
structure RelOut where
  src_id : String
  tgt_id : String
  description : String
  keywords : String
  source_id : String
  file_path : String
  created_at : Nat
deriving DecidableEq, Repr

/-- Comma-separated keyword string to clean tokens
(`k.strip() for k in s.split(",") if k.strip()`). -/
def cleanCommaTokens (s : String) : List String :=
  ((pySplit "," s).map pyStrip).filter (· ≠ "")

/-- Backfill of a missing endpoint node of a merged edge (operate.py lines
727-753): skipped when the node exists, a warning when both `source_id`
and `file_path` are missing, else an UNKNOWN-type node upsert. -/
def edgeNodeBackfill (env : MergeEnv) (src_id tgt_id source_id file_path
    description : String) (g : KGraph) (need_insert_id : String) : KGraph :=
  if hasNode g need_insert_id then g
  else if source_id = "" ∧ file_path = "" then
    warn g ("Skip creating node " ++ need_insert_id ++ " for edge " ++ src_id ++
      "-" ++ tgt_id ++ " due to missing source_id and file_path")
  else
    upsertNode g need_insert_id
      { entity_id := need_insert_id, source_id := source_id,
        description := description, entity_type := "UNKNOWN",
        file_path := file_path, created_at := env.now }

/-- `operate._merge_edges_then_upsert` (lines 618-786). -/
def _merge_edges_then_upsert (env : MergeEnv) (g0 : KGraph) (src_id0 tgt_id0 : String)
    (edges_data : List EdgeRecord) : KGraph × Option RelOut :=
  if src_id0 = tgt_id0 then (g0, none)
  else
    let src_id := standardize_entity_name src_id0
    let tgt_id := standardize_entity_name tgt_id0
    let already := getEdge g0 src_id tgt_id
    let already_weights := match already with | some e => [e.weight] | none => []
    let already_source_ids := match already with
      | some e => split_string_by_multi_markers e.source_id GRAPH_FIELD_SEP
      | none => []
    let already_file_paths := match already with
      | some e => split_string_by_multi_markers e.file_path GRAPH_FIELD_SEP
      | none => []
    let already_description := match already with
      | some e => [e.description]
      | none => []
    let already_keywords := match already with
      | some e => split_string_by_multi_markers e.keywords GRAPH_FIELD_SEP
      | none => []
    let weight := ((edges_data.map (·.weight)) ++ already_weights).sum
    let description :=
      pyJoin GRAPH_FIELD_SEP
        (sortedSet (((edges_data.filter (·.description ≠ "")).map (·.description)) ++
          already_description))
    let all_keywords :=
      ((already_keywords.filter (· ≠ "")).flatMap cleanCommaTokens) ++
        ((edges_data.filter (·.keywords ≠ "")).flatMap (fun e => cleanCommaTokens e.keywords))
    let keywords := pyJoin "," (sortedSet all_keywords)
    let source_id :=
      pyJoin GRAPH_FIELD_SEP
        (sortedSet (((edges_data.map (·.source_id)).filter (· ≠ "")) ++
          already_source_ids))
    let file_path :=
      pyJoin GRAPH_FIELD_SEP
        (sortedSet (((edges_data.map (·.file_path)).filter (· ≠ "")) ++
          already_file_paths))
    let g1 := [src_id, tgt_id].foldl
      (edgeNodeBackfill env src_id tgt_id source_id file_path description) g0
    let num_fragment := (pySplit GRAPH_FIELD_SEP description).length
    let description1 :=
      if 1 < num_fragment ∧ env.config.force_llm_summary_on_merge ≤ num_fragment then
        env.summaryLLM ("(" ++ src_id ++ ", " ++ tgt_id ++ ")") description
      else description
    let g2 := upsertEdge g1 src_id tgt_id
      { weight := weight, description := description1, keywords := keywords,
        source_id := source_id, file_path := file_path, created_at := env.now }
      false
    (g2, some { src_id := src_id, tgt_id := tgt_id, description := description1,
                keywords := keywords, source_id := source_id, file_path := file_path,
                created_at := env.now })

/-- Ordered pair combinations (`itertools.combinations(l, 2)`). -/
def pairCombos {α : Type} : List α → List (α × α)
  | [] => []
  | x :: xs => (xs.map (fun y => (x, y))) ++ pairCombos xs

/-- `operate._merge_association_then_upsert` (lines 789-861). -/
def _merge_association_then_upsert (env : MergeEnv) (g0 : KGraph)
    (assoc : AssocRecord) : KGraph × Option NodeData :=
  let entities := assoc.entities.map standardize_entity_name
  let assoc_id := "assoc-" ++ env.hashFn (pyJoin "::" (pySorted entities))
  let description := assoc.description ++ GRAPH_FIELD_SEP ++ assoc.generalization
  if pyStrip description = "" then
    (warn g0 ("Skip association node " ++ assoc_id ++ " due to empty description"),
     none)
  else
    let node_data : NodeData :=
      { entity_id := assoc_id, entity_type := "ASSOCIATION",
        description := description, keywords := assoc.keywords,
        strength := assoc.strength, entities := pyJoin ";" entities,
        source_id := assoc.source_id, file_path := assoc.file_path,
        created_at := env.now }
    if node_data.source_id = "" ∧ node_data.file_path = "" then
      (warn g0 ("Skip association node " ++ assoc_id ++
        " due to missing source_id and file_path"), none)
    else
      let g1 := upsertNode g0 assoc_id node_data
      let g2 := entities.foldl
        (fun g ent =>
          upsertEdge g assoc_id ent
            { weight := assoc.strength, description := assoc.generalization,
              keywords := assoc.keywords, source_id := assoc.source_id,
              file_path := assoc.file_path, created_at := env.now }
            false)
        g1
      let g3 := (pairCombos entities).foldl
        (fun g st =>
          (_merge_edges_then_upsert env g st.1 st.2
            [{ src_id := st.1, tgt_id := st.2, weight := assoc.strength,
               description := assoc.description, keywords := assoc.keywords,
               source_id := assoc.source_id, file_path := assoc.file_path }]).1)
        g2
      (g3, some node_data)

/-- An edge dict carried to the relationship vector store
(`inserted_edges` of the multi-hop merge / `multi_hop_edges` of the
fan-out). -/
structure MhEdge where
  src_id : String
  tgt_id : String
  weight : ℚ
  description : String
  keywords : String
  source_id : String
  file_path : String
  created_at : Nat
deriving DecidableEq, Repr

/-- `operate._merge_multi_hop_then_upsert` (lines 864-914). -/
def _merge_multi_hop_then_upsert (env : MergeEnv) (g0 : KGraph)
    (path : MultiHopRecord) : KGraph × (Option NodeData × List MhEdge) :=
  let entities := path.path_entities.map standardize_entity_name
  let path_id := "mh-" ++ env.hashFn (pyJoin "->" entities)
  let description := path.path_description
  if pyStrip description = "" then
    (warn g0 ("Skip multi-hop node " ++ path_id ++ " due to empty description"),
     (none, []))
  else
    let node_data : NodeData :=
      { entity_id := path_id, entity_type := "MULTI_HOP",
        description := description, keywords := path.path_keywords,
        strength := path.path_strength, path := pyJoin "->" entities,
        source_id := path.source_id, file_path := path.file_path,
        created_at := env.now }
    if node_data.source_id = "" ∧ node_data.file_path = "" then
      (warn g0 ("Skip multi-hop node " ++ path_id ++
        " due to missing source_id and file_path"), (none, []))
    else
      let g1 := upsertNode g0 path_id node_data
      let step := fun (acc : KGraph × List MhEdge) ent =>
        (upsertEdge acc.1 path_id ent
          { weight := path.path_strength, description := description,
            keywords := path.path_keywords, source_id := path.source_id,
            file_path := path.file_path, latent := true, created_at := env.now }
          true,
         acc.2 ++ [{ src_id := path_id, tgt_id := ent,
                     weight := path.path_strength, description := description,
                     keywords := path.path_keywords, source_id := path.source_id,
                     file_path := path.file_path, created_at := env.now }])
      let r := entities.foldl step (g1, [])
      (r.1, (some node_data, r.2))

/-- One per-chunk extraction result (a `chunk_results` element). -/
structure ChunkResult where
  maybe_nodes : List (String × List EntityRecord)
  maybe_edges : List ((String × String) × List EdgeRecord)
  maybe_assocs : List AssocRecord
  maybe_multi_hops : List MultiHopRecord
deriving DecidableEq, Repr

/-- Node grouping across chunks (operate.py lines 953-956). -/
def collectAllNodes (chunk_results : List ChunkResult) :
    List (String × List EntityRecord) :=
  chunk_results.foldl
    (fun acc cr => cr.maybe_nodes.foldl (fun a kv => alistExtend a kv.1 kv.2) acc) []

/-- Edge grouping with sorted keys (operate.py lines 958-961). -/
def collectAllEdges (chunk_results : List ChunkResult) :
    List ((String × String) × List EdgeRecord) :=
  chunk_results.foldl
    (fun acc cr =>
      cr.maybe_edges.foldl (fun a kv => alistExtend a (sortPair kv.1) kv.2) acc) []

/-- One vector-store upsert entry (only the id and the `content` field are
examined by the claims; the other payload fields are omitted). -/
structure VdbEntry where
  id : String
  content : String
deriving DecidableEq, Repr

/-- `operate._truncate_content` (lines 125-129). -/
def _truncate_content (content : String) : String :=
  if MAX_VECTOR_CONTENT_LENGTH < content.length then
    String.mk (content.data.take MAX_VECTOR_CONTENT_LENGTH)
  else content

/-- Result of `merge_nodes_and_edges`: final graph, both vector-store write
traces, and the uncaught `NameError` raised at line 1151 when
`enable_multi_hop` is off while a relationship vector store is present
(`multi_hop_edges` is then never assigned). -/
structure MergeResult where
  graph : KGraph
  entityVdbWrites : List VdbEntry
  relVdbWrites : List VdbEntry
  error : Option String
deriving DecidableEq, Repr

/-- Entity vector payload content (operate.py line 1071). -/
def entityVdbContent (dp : NodeData) : String :=
  _truncate_content (dp.entity_id ++ "\n" ++ dp.description ++ "\n" ++
    (dp.additional_properties.getD "") ++ "\n" ++ (dp.entity_community.getD ""))

/-- Relationship vector payload content (operate.py lines 1102-1104). -/
def relVdbContent (src tgt kws desc : String) : String :=
  _truncate_content (src ++ "\t" ++ tgt ++ "\n" ++ kws ++ "\n" ++ desc)

/-- One node-group step of the entity-merge fold in `merge_nodes_and_edges`
(operate.py lines 1026-1040): merge the group, collect the returned node
data when the group was not skipped. -/
def nodeMergeStep (env : MergeEnv) (acc : KGraph × List NodeData)
    (kv : String × List EntityRecord) : KGraph × List NodeData :=
  let r := _merge_nodes_then_upsert env acc.1 kv.1 kv.2
  (r.1, match r.2 with | some d => acc.2 ++ [d] | none => acc.2)

/-- One edge-group step of the relationship-merge fold in
`merge_nodes_and_edges` (operate.py lines 1042-1056). -/
def edgeMergeStep (env : MergeEnv) (acc : KGraph × List RelOut)
    (kv : (String × String) × List EdgeRecord) : KGraph × List RelOut :=
  let r := _merge_edges_then_upsert env acc.1 kv.1.1 kv.1.2 kv.2
  (r.1, match r.2 with | some d => acc.2 ++ [d] | none => acc.2)

/-- One association step of the association-merge fold in
`merge_nodes_and_edges`. -/
def assocMergeStep (env : MergeEnv) (acc : KGraph × List NodeData)
    (assoc : AssocRecord) : KGraph × List NodeData :=
  let r := _merge_association_then_upsert env acc.1 assoc
  (r.1, match r.2 with | some d => acc.2 ++ [d] | none => acc.2)

/-- One multi-hop step of the multi-hop-merge fold in
`merge_nodes_and_edges`. -/
def mhMergeStep (env : MergeEnv) (acc : KGraph × List NodeData × List MhEdge)
    (mh : MultiHopRecord) : KGraph × List NodeData × List MhEdge :=
  let r := _merge_multi_hop_then_upsert env acc.1 mh
  (r.1,
   (match r.2.1 with | some d => acc.2.1 ++ [d] | none => acc.2.1),
   acc.2.2 ++ r.2.2)

/-- One path of the post-merge multi-hop fan-out (operate.py lines
1127-1149): skip paths with fewer than two entities, else upsert a latent
edge from the first to the last path entity. -/
def fanOutPathStep (env : MergeEnv) (ent : NodeData)
    (acc2 : KGraph × List MhEdge) (p : PathRecord) : KGraph × List MhEdge :=
  if p.path_entities.length < 2 then acc2
  else
    let src := p.path_entities.headD ""
    let tgt := p.path_entities.getLastD ""
    (upsertEdge acc2.1 src tgt
      { weight := p.path_strength, description := p.path_description,
        keywords := p.path_keywords, latent := true,
        source_id := ent.source_id, file_path := ent.file_path,
        created_at := env.now }
      true,
     acc2.2 ++ [{ src_id := src, tgt_id := tgt, weight := p.path_strength,
                  description := p.path_description, keywords := p.path_keywords,
                  source_id := ent.source_id, file_path := ent.file_path,
                  created_at := env.now }])

/-- The fan-out over one merged entity: ask the graph for multi-hop paths
from it (a failed call logs a warning and moves on), then process each
path. -/
def fanOutStep (env : MergeEnv) (acc : KGraph × List MhEdge) (ent : NodeData) :
    KGraph × List MhEdge :=
  match env.multiHopPathsFn acc.1 ent.entity_id with
  | none => (warn acc.1 ("multi_hop path search failed for " ++ ent.entity_id), acc.2)
  | some paths => paths.foldl (fanOutPathStep env ent) acc

/-- One community assignment of the community-detection rewrite: update the
node in place when it exists (also refreshing its entity vector payload),
else insert a stub UNKNOWN node. -/
def communityStep (env : MergeEnv) (acc : KGraph × List VdbEntry)
    (nc : String × String) : KGraph × List VdbEntry :=
  match getNode acc.1 nc.1 with
  | some n =>
    let g1 := upsertNode acc.1 nc.1
      { n with entity_type := n.entity_type, entity_community := some nc.2 }
    let w :=
      if env.hasEntityVdb then
        acc.2 ++ [{ id := "ent-" ++ env.hashFn nc.1,
                    content := _truncate_content (nc.1 ++ "\n" ++ n.description ++
                      "\n" ++ (n.additional_properties.getD "") ++ "\n" ++ nc.2) }]
      else acc.2
    (g1, w)
  | none =>
    (upsertNode acc.1 nc.1
      { entity_id := nc.1, entity_type := "UNKNOWN", entity_community := some nc.2,
        description := "", source_id := "", file_path := "", created_at := env.now },
     acc.2)

/-- The entity vector payload of one merged node (operate.py lines
1067-1075). -/
def entityWriteEntry (env : MergeEnv) (dp : NodeData) : VdbEntry :=
  { id := "ent-" ++ env.hashFn dp.entity_id, content := entityVdbContent dp }

/-- The relationship vector payload of one merged or multi-hop edge tuple
`(src, tgt, keywords, description)` (operate.py lines 1096-1107). -/
def relWriteEntry (env : MergeEnv) (e : String × String × String × String) :
    VdbEntry :=
  { id := "rel-" ++ env.hashFn (e.1 ++ e.2.1),
    content := relVdbContent e.1 e.2.1 e.2.2.1 e.2.2.2 }

/-- The relationship vector payload of one fan-out latent edge (operate.py
lines 1151-1160). -/
def mhWriteEntry (env : MergeEnv) (e : MhEdge) : VdbEntry :=
  { id := "rel-" ++ env.hashFn (e.src_id ++ e.tgt_id),
    content := relVdbContent e.src_id e.tgt_id e.keywords e.description }

/-- The entity vector writes of the batch (operate.py lines 1059-1078):
issued only when an entity vector store is present and some phase produced
node data; association and multi-hop payloads join only when their flag is
on. -/
def entityVdbWritesOf (env : MergeEnv)
    (entities_data associations_nodes multi_hop_nodes : List NodeData) :
    List VdbEntry :=
  if env.hasEntityVdb ∧
      (entities_data ≠ [] ∨
        (env.config.enable_association ∧ associations_nodes ≠ []) ∨
        (env.config.enable_multi_hop ∧ multi_hop_nodes ≠ [])) then
    (entities_data ++
      (if env.config.enable_association then associations_nodes else []) ++
      (if env.config.enable_multi_hop then multi_hop_nodes else [])).map
      (entityWriteEntry env)
  else []

/-- The relationship vector writes from merged and multi-hop-merge edges
(operate.py lines 1080-1107). -/
def relVdbWritesMainOf (env : MergeEnv) (relationships_data : List RelOut)
    (multi_hop_edges_from_paths : List MhEdge) : List VdbEntry :=
  if env.hasRelationshipsVdb ∧
      (relationships_data ≠ [] ∨
        (env.config.enable_multi_hop ∧ multi_hop_edges_from_paths ≠ [])) then
    (relationships_data.map (fun e => (e.src_id, e.tgt_id, e.keywords, e.description)) ++
      (if env.config.enable_multi_hop then
        multi_hop_edges_from_paths.map
          (fun e => (e.src_id, e.tgt_id, e.keywords, e.description))
      else [])).map (relWriteEntry env)
  else []

/-- The relationship vector writes from the fan-out latent edges
(operate.py lines 1151-1160); empty when the `NameError` fires first. -/
def relVdbWritesFanOutOf (env : MergeEnv) (error : Option String)
    (multi_hop_edges : List MhEdge) : List VdbEntry :=
  if error = none ∧ env.hasRelationshipsVdb ∧ multi_hop_edges ≠ [] then
    multi_hop_edges.map (mhWriteEntry env)
  else []

/-- The community-detection rewrite phase (skipped after the `NameError`). -/
def communityPhase (env : MergeEnv) (error : Option String) (g5 : KGraph) :
    KGraph × List VdbEntry :=
  if error = none ∧ env.config.enable_community_detection then
    (env.detectCommunitiesFn g5).foldl (communityStep env) (g5, [])
  else (g5, [])

/-- The entity-merge phase (operate.py lines 1026-1040). -/
def nodesPhase (env : MergeEnv) (g : KGraph)
    (l : List (String × List EntityRecord)) : KGraph × List NodeData :=
  l.foldl (nodeMergeStep env) (g, [])

/-- The relationship-merge phase (operate.py lines 1042-1056). -/
def edgesPhase (env : MergeEnv) (g : KGraph)
    (l : List ((String × String) × List EdgeRecord)) : KGraph × List RelOut :=
  l.foldl (edgeMergeStep env) (g, [])

/-- The association-merge phase, skipped when the flag is off. -/
def assocPhase (env : MergeEnv) (g : KGraph) (l : List AssocRecord) :
    KGraph × List NodeData :=
  if env.config.enable_association then l.foldl (assocMergeStep env) (g, [])
  else (g, [])

/-- The multi-hop-merge phase, skipped when the flag is off. -/
def mhPhase (env : MergeEnv) (g : KGraph) (l : List MultiHopRecord) :
    KGraph × List NodeData × List MhEdge :=
  if env.config.enable_multi_hop then l.foldl (mhMergeStep env) (g, [], [])
  else (g, [], [])

/-- The post-merge multi-hop fan-out over the merged entities
(operate.py lines 1127-1149), skipped when the flag is off. -/
def fanOutPhase (env : MergeEnv) (g : KGraph) (ents : List NodeData) :
    KGraph × List MhEdge :=
  if env.config.enable_multi_hop then ents.foldl (fanOutStep env) (g, [])
  else (g, [])

/-- `operate.merge_nodes_and_edges` (lines 917-1192), as one state
transformation under the graph-DB lock (the embedding is single-threaded;
pipeline-status logging is not modelled).  The fan-out iterates
`entities_data`, which the entity-vector block (lines 1061-1065) extends
IN PLACE (`all_nodes_data = entities_data; all_nodes_data += ...`) when
that block runs, so the fan-out then also covers the association and
multi-hop node data; `fanEnts` reproduces this aliasing. -/
def merge_nodes_and_edges (env : MergeEnv) (g0 : KGraph)
    (chunk_results : List ChunkResult) (file_path : String) : MergeResult :=
  let all_nodes := collectAllNodes chunk_results
  let all_edges := collectAllEdges chunk_results
  let all_assocs := chunk_results.flatMap (·.maybe_assocs)
  let all_multi_hops := chunk_results.flatMap (·.maybe_multi_hops)
  let r1 := nodesPhase env g0 all_nodes
  let r2 := edgesPhase env r1.1 all_edges
  let r3 := assocPhase env r2.1 all_assocs
  let r4 := mhPhase env r3.1 all_multi_hops
  let fanEnts :=
    if env.hasEntityVdb ∧
        (r1.2 ≠ [] ∨
          (env.config.enable_association ∧ r3.2 ≠ []) ∨
          (env.config.enable_multi_hop ∧ r4.2.1 ≠ [])) then
      r1.2 ++
        (if env.config.enable_association then r3.2 else []) ++
        (if env.config.enable_multi_hop then r4.2.1 else [])
    else r1.2
  let r5 := fanOutPhase env r4.1 fanEnts
  let error :=
    if env.config.enable_multi_hop = false ∧ env.hasRelationshipsVdb then
      some "NameError: name multi_hop_edges is not defined"
    else none
  let r6 := communityPhase env error r5.1
  { graph := r6.1,
    entityVdbWrites := entityVdbWritesOf env r1.2 r3.2 r4.2.1 ++ r6.2,
    relVdbWrites := relVdbWritesMainOf env r2.2 r4.2.2 ++
      relVdbWritesFanOutOf env error r5.2,
    error := error }

theorem truncate_content_length (s : String) :
    (_truncate_content s).length ≤ MAX_VECTOR_CONTENT_LENGTH := by
  unfold _truncate_content
  by_cases h : MAX_VECTOR_CONTENT_LENGTH < s.length
  · rw [if_pos h]
    show (s.data.take MAX_VECTOR_CONTENT_LENGTH).length ≤ MAX_VECTOR_CONTENT_LENGTH
    rw [List.length_take]
    omega
  · rw [if_neg h]
    omega

theorem foldl_pair_snd_invariant {α σ β : Type} (P : β → Prop)
    (step : σ × List β → α → σ × List β)
    (hstep : ∀ acc a, (∀ e ∈ acc.2, P e) → ∀ e ∈ (step acc a).2, P e) :
    ∀ (l : List α) (acc : σ × List β), (∀ e ∈ acc.2, P e) →
      ∀ e ∈ (l.foldl step acc).2, P e := by
  intro l
  induction l with
  | nil => intro acc hacc e he; exact hacc e he
  | cons a as ih =>
    intro acc hacc e he
    exact ih (step acc a) (hstep acc a hacc) e he

/-- Every entity-payload write respects the vector-content bound. -/
theorem entityVdbWritesOf_bound (env : MergeEnv) (a b c : List NodeData) :
    ∀ e ∈ entityVdbWritesOf env a b c,
      e.content.length ≤ MAX_VECTOR_CONTENT_LENGTH := by
  intro e he
  unfold entityVdbWritesOf at he
  split at he
  · rcases List.mem_map.mp he with ⟨dp, _, rfl⟩
    show (entityVdbContent dp).length ≤ MAX_VECTOR_CONTENT_LENGTH
    exact truncate_content_length _
  · simp at he

theorem relVdbWritesMainOf_bound (env : MergeEnv) (rels : List RelOut)
    (mhs : List MhEdge) :
    ∀ e ∈ relVdbWritesMainOf env rels mhs,
      e.content.length ≤ MAX_VECTOR_CONTENT_LENGTH := by
  intro e he
  unfold relVdbWritesMainOf at he
  split at he
  · rcases List.mem_map.mp he with ⟨q, _, rfl⟩
    show (relVdbContent q.1 q.2.1 q.2.2.1 q.2.2.2).length ≤ MAX_VECTOR_CONTENT_LENGTH
    exact truncate_content_length _
  · simp at he

theorem relVdbWritesFanOutOf_bound (env : MergeEnv) (err : Option String)
    (mhs : List MhEdge) :
    ∀ e ∈ relVdbWritesFanOutOf env err mhs,
      e.content.length ≤ MAX_VECTOR_CONTENT_LENGTH := by
  intro e he
  unfold relVdbWritesFanOutOf at he
  split at he
  · rcases List.mem_map.mp he with ⟨q, _, rfl⟩
    show (relVdbContent q.src_id q.tgt_id q.keywords q.description).length ≤
      MAX_VECTOR_CONTENT_LENGTH
    exact truncate_content_length _
  · simp at he

theorem communityPhase_bound (env : MergeEnv) (err : Option String) (g : KGraph) :
    ∀ e ∈ (communityPhase env err g).2,
      e.content.length ≤ MAX_VECTOR_CONTENT_LENGTH := by
  intro e he
  unfold communityPhase at he
  split at he
  · refine foldl_pair_snd_invariant
      (fun x => x.content.length ≤ MAX_VECTOR_CONTENT_LENGTH) (communityStep env)
      ?_ _ _ (by intro x hx; simp at hx) e he
    intro acc nc hacc x hx
    unfold communityStep at hx
    cases hn : getNode acc.1 nc.1 with
    | some n =>
      simp only [hn] at hx
      by_cases hv : env.hasEntityVdb = true
      · simp only [hv, if_true] at hx
        rcases List.mem_append.mp hx with hx | hx
        · exact hacc x hx
        · rcases List.mem_singleton.mp hx with rfl
          exact truncate_content_length _
      · simp only [hv] at hx
        simp only [Bool.false_eq_true, if_false] at hx
        exact hacc x hx
    | none =>
      simp only [hn] at hx
      exact hacc x hx
  · simp at he

/-- Claim C9: every `content` field written by `merge_nodes_and_edges` to
the entity or relationship vector store (entity, association, multi-hop
node payloads; relationship, latent-edge, fan-out payloads; and
community-detection rewrites) is at most 65,000 characters long, for every
input batch and every prior graph state: every write site goes through
`_truncate_content`. -/
theorem C9_vector_content_bounded (env : MergeEnv) (g0 : KGraph)
    (chunk_results : List ChunkResult) (file_path : String) :
    ∀ e ∈ (merge_nodes_and_edges env g0 chunk_results file_path).entityVdbWrites ++
        (merge_nodes_and_edges env g0 chunk_results file_path).relVdbWrites,
      e.content.length ≤ MAX_VECTOR_CONTENT_LENGTH := by
  intro e he
  unfold merge_nodes_and_edges at he
  simp only [List.mem_append] at he
  rcases he with (he | he) | (he | he)
  · exact entityVdbWritesOf_bound env _ _ _ e he
  · exact communityPhase_bound env _ _ e he
  · exact relVdbWritesMainOf_bound env _ _ e he
  · exact relVdbWritesFanOutOf_bound env _ _ e he

/-- The empty graph store. -/
def emptyKGraph : KGraph :=
  { nodes := [], edges := [], edgeWriteTrace := [], warnings := [] }

/-- A merge environment for concrete evaluations: default configuration,
identity-style oracles, constant hash. -/
def evalMergeEnv : MergeEnv :=
  { config := {}, summaryLLM := fun _ d => d, enrichLLM := fun _ d => d,
    geoLookup := fun _ => none, multiHopPathsFn := fun _ _ => some [],
    detectCommunitiesFn := fun _ => [], hashFn := fun _ => "h", now := 0,
    hasEntityVdb := true, hasRelationshipsVdb := true }

/-- A one-entity extraction batch for concrete evaluations. -/
def c9Batch : List ChunkResult :=
  [{ maybe_nodes := [("Alpha",
       [{ entity_name := "Alpha", entity_type := "person",
          description := "desc", additional_properties := "",
          entity_community := "c", source_id := "chunk-1",
          file_path := "f" }])],
     maybe_edges := [], maybe_assocs := [], maybe_multi_hops := [] }]

/-- Witness for `C9_vector_content_bounded`: a concrete merge producing a
concrete entity write whose content respects the bound. -/
theorem C9_vector_content_bounded_witness :
    ({ id := "ent-h", content := "Alpha\ndesc\n\nc" } : VdbEntry) ∈
      (merge_nodes_and_edges evalMergeEnv emptyKGraph c9Batch "f").entityVdbWrites ++
        (merge_nodes_and_edges evalMergeEnv emptyKGraph c9Batch "f").relVdbWrites ∧
    ({ id := "ent-h", content := "Alpha\ndesc\n\nc" } : VdbEntry).content.length ≤
      MAX_VECTOR_CONTENT_LENGTH :=
  ⟨by decide,
   C9_vector_content_bounded evalMergeEnv emptyKGraph c9Batch "f" _ (by decide)⟩

/-- `sortedSet` of the empty list is empty. -/
theorem sortedSet_nil : sortedSet [] = [] := rfl

/-- `pyJoin` of the empty list is the empty string. -/
theorem pyJoin_nil (sep : String) : pyJoin sep [] = "" := rfl

/-- A two-group batch whose first node group merges to an empty
description (it is skipped) followed by a healthy group: used to check
that a skip does not abort the rest of the batch. -/
def c7Batch : List ChunkResult :=
  [{ maybe_nodes := [("Bad",
       [{ entity_name := "Bad", entity_type := "person", description := " ",
          additional_properties := "", entity_community := "c",
          source_id := "chunk-1", file_path := "f" }]),
      ("Good",
       [{ entity_name := "Good", entity_type := "person", description := "d",
          additional_properties := "", entity_community := "c",
          source_id := "chunk-1", file_path := "f" }])],
     maybe_edges := [], maybe_assocs := [], maybe_multi_hops := [] }]

/-- Claim C7: an extracted entity record with an empty name, a merged node
whose combined description is empty, and a node or derived
(association / multi-hop) node lacking both `source_id` and `file_path`
are each skipped with a warning and never upserted; no exception is
raised, the graph is otherwise unchanged (`warn` only appends to the
warning log), and a skip does not abort the merge of the remaining
records in the batch (concrete two-group batch: the skipped node is
absent, the following node is still upserted, only the skip warning is
logged, and no error is reported). -/
theorem C7_skip_with_warning :
    (∀ (attrs : List String) (ck fp : String),
       6 ≤ attrs.length →
       strContains (attrs.getD 0 "") "\"entity\"" = true →
       pyStrip (clean_str (attrs.getD 1 "")) = "" →
       _handle_single_entity_extraction attrs ck fp =
         (none, ["Entity extraction error: empty entity name"])) ∧
    (∀ (env : MergeEnv) (g0 : KGraph) (name : String) (nds : List EntityRecord),
       getNode g0 (standardize_entity_name name) = none →
       pyStrip (pyJoin GRAPH_FIELD_SEP (sortedSet (nds.map (·.description)))) = "" →
       _merge_nodes_then_upsert env g0 name nds =
         (warn g0 ("Skip inserting node " ++ standardize_entity_name name ++
            " due to empty description"), none)) ∧
    (∀ (env : MergeEnv) (g0 : KGraph) (name : String) (nds : List EntityRecord),
       getNode g0 (standardize_entity_name name) = none →
       pyStrip (pyJoin GRAPH_FIELD_SEP (sortedSet (nds.map (·.description)))) ≠ "" →
       (nds.map (·.source_id)).filter (· ≠ "") = [] →
       (nds.map (·.file_path)).filter (· ≠ "") = [] →
       _merge_nodes_then_upsert env g0 name nds =
         (warn g0 ("Skip inserting node " ++ standardize_entity_name name ++
            " due to missing source_id and file_path"), none)) ∧
    (∀ (env : MergeEnv) (g0 : KGraph) (assoc : AssocRecord),
       pyStrip (assoc.description ++ GRAPH_FIELD_SEP ++ assoc.generalization) ≠ "" →
       assoc.source_id = "" → assoc.file_path = "" →
       _merge_association_then_upsert env g0 assoc =
         (warn g0 ("Skip association node " ++
            ("assoc-" ++ env.hashFn
              (pyJoin "::" (pySorted (assoc.entities.map standardize_entity_name)))) ++
            " due to missing source_id and file_path"), none)) ∧
    (∀ (env : MergeEnv) (g0 : KGraph) (path : MultiHopRecord),
       pyStrip path.path_description ≠ "" →
       path.source_id = "" → path.file_path = "" →
       _merge_multi_hop_then_upsert env g0 path =
         (warn g0 ("Skip multi-hop node " ++
            ("mh-" ++ env.hashFn
              (pyJoin "->" (path.path_entities.map standardize_entity_name))) ++
            " due to missing source_id and file_path"), (none, []))) ∧
    (∀ (g : KGraph) (m : String),
       (warn g m).nodes = g.nodes ∧ (warn g m).edges = g.edges ∧
       (warn g m).warnings = g.warnings ++ [m]) ∧
    ((getNode (merge_nodes_and_edges evalMergeEnv emptyKGraph c7Batch "f").graph
        "Good").isSome = true ∧
     getNode (merge_nodes_and_edges evalMergeEnv emptyKGraph c7Batch "f").graph
        "Bad" = none ∧
     (merge_nodes_and_edges evalMergeEnv emptyKGraph c7Batch "f").graph.warnings =
       ["Skip inserting node Bad due to empty description"] ∧
     (merge_nodes_and_edges evalMergeEnv emptyKGraph c7Batch "f").error = none) := by
  refine ⟨?_, ?_, ?_, ?_, ?_, ?_, ?_⟩
  · intro attrs ck fp hlen hent hname
    have hc : ¬(attrs.length < 6 ∨
        strContains (attrs.getD 0 "") "\"entity\"" = false) := by
      rintro (h | h)
      · omega
      · rw [hent] at h
        exact Bool.noConfusion h
    unfold _handle_single_entity_extraction
    rw [if_neg hc]
    simp only [hname]
    rw [if_pos trivial]
  · intro env g0 name nds hfresh hdesc
    unfold _merge_nodes_then_upsert
    simp only [hfresh, List.append_nil]
    rw [if_pos hdesc]
  · intro env g0 name nds hfresh hdesc hsrc hfp
    unfold _merge_nodes_then_upsert
    simp only [hfresh, List.append_nil]
    rw [if_neg hdesc]
    simp only [hsrc, hfp, sortedSet_nil, pyJoin_nil]
    rw [if_pos (by simp)]
  · intro env g0 assoc hdesc hs hf
    unfold _merge_association_then_upsert
    simp only []
    rw [if_neg hdesc, if_pos ⟨hs, hf⟩]
  · intro env g0 path hdesc hs hf
    unfold _merge_multi_hop_then_upsert
    simp only []
    rw [if_neg hdesc, if_pos ⟨hs, hf⟩]
  · intro g m
    exact ⟨rfl, rfl, rfl⟩
  · exact ⟨by decide, by decide, by decide, by decide⟩

/-- Witness for `C7_skip_with_warning`: each skip branch evaluated on a
concrete offending input. -/
theorem C7_skip_with_warning_witness :
    _handle_single_entity_extraction
        ["(\"entity\"", "", "person", "d", "", ""] "c1" "f1" =
      (none, ["Entity extraction error: empty entity name"]) ∧
    _merge_nodes_then_upsert evalMergeEnv emptyKGraph "N"
        [{ entity_name := "N", entity_type := "T", description := " ",
           additional_properties := "", entity_community := "c",
           source_id := "s", file_path := "f" }] =
      (warn emptyKGraph "Skip inserting node N due to empty description",
       none) ∧
    _merge_nodes_then_upsert evalMergeEnv emptyKGraph "M"
        [{ entity_name := "M", entity_type := "T", description := "d",
           additional_properties := "", entity_community := "c",
           source_id := "", file_path := "" }] =
      (warn emptyKGraph
        "Skip inserting node M due to missing source_id and file_path",
       none) ∧
    _merge_association_then_upsert evalMergeEnv emptyKGraph
        { entities := ["A", "B"], description := "d", generalization := "g",
          keywords := "k", strength := 1, source_id := "", file_path := "" } =
      (warn emptyKGraph
        "Skip association node assoc-h due to missing source_id and file_path",
       none) ∧
    _merge_multi_hop_then_upsert evalMergeEnv emptyKGraph
        { path_entities := ["A", "B"], path_description := "d",
          path_keywords := "k", path_strength := 1, source_id := "",
          file_path := "" } =
      (warn emptyKGraph
        "Skip multi-hop node mh-h due to missing source_id and file_path",
       (none, [])) :=
  ⟨C7_skip_with_warning.1 ["(\"entity\"", "", "person", "d", "", ""] "c1" "f1"
     (by decide) (by decide) (by decide),
   C7_skip_with_warning.2.1 evalMergeEnv emptyKGraph "N" _ (by decide) (by decide),
   C7_skip_with_warning.2.2.1 evalMergeEnv emptyKGraph "M" _ (by decide) (by decide)
     (by decide) (by decide),
   C7_skip_with_warning.2.2.2.1 evalMergeEnv emptyKGraph _ (by decide) rfl rfl,
   C7_skip_with_warning.2.2.2.2.1 evalMergeEnv emptyKGraph _ (by decide) rfl rfl⟩

/-- The ghost self-loop-freedom invariant: every edge write recorded in
the trace so far had two distinct endpoints. -/
def selfLoopFree (g : KGraph) : Prop :=
  ∀ ab ∈ g.edgeWriteTrace, ab.1 ≠ ab.2

theorem upsertNode_trace (g : KGraph) (id : String) (nd : NodeData) :
    (upsertNode g id nd).edgeWriteTrace = g.edgeWriteTrace := rfl

theorem warn_trace (g : KGraph) (m : String) :
    (warn g m).edgeWriteTrace = g.edgeWriteTrace := rfl

theorem upsertEdge_trace (g : KGraph) (a b : String) (ed : EdgeData) (w : Bool) :
    (upsertEdge g a b ed w).edgeWriteTrace = g.edgeWriteTrace ++ [(a, b)] := rfl

theorem selfLoopFree_of_trace_eq {g g' : KGraph}
    (h : g'.edgeWriteTrace = g.edgeWriteTrace) (hg : selfLoopFree g) :
    selfLoopFree g' := by
  intro ab hab
  exact hg ab (h ▸ hab)

theorem selfLoopFree_warn {g : KGraph} (m : String) (hg : selfLoopFree g) :
    selfLoopFree (warn g m) :=
  selfLoopFree_of_trace_eq (warn_trace g m) hg

theorem selfLoopFree_upsertNode {g : KGraph} (id : String) (nd : NodeData)
    (hg : selfLoopFree g) : selfLoopFree (upsertNode g id nd) :=
  selfLoopFree_of_trace_eq (upsertNode_trace g id nd) hg

theorem selfLoopFree_upsertEdge {g : KGraph} {a b : String} (ed : EdgeData)
    (w : Bool) (hg : selfLoopFree g) (hab : a ≠ b) :
    selfLoopFree (upsertEdge g a b ed w) := by
  intro ab hab2
  rw [upsertEdge_trace] at hab2
  rcases List.mem_append.mp hab2 with h | h
  · exact hg ab h
  · rcases List.mem_singleton.mp h with rfl
    exact hab

theorem foldl_invariant_mem {α σ : Type} (P : σ → Prop) (step : σ → α → σ) :
    ∀ (l : List α), (∀ acc a, a ∈ l → P acc → P (step acc a)) →
      ∀ acc, P acc → P (l.foldl step acc) := by
  intro l
  induction l with
  | nil => intro _ acc h; exact h
  | cons x xs ih =>
    intro hstep acc hacc
    exact ih (fun acc a ha => hstep acc a (List.mem_cons_of_mem x ha)) (step acc x)
      (hstep acc x (List.mem_cons_self x xs) hacc)

theorem foldl_trace_invariant {α : Type} (step : KGraph → α → KGraph)
    (hstep : ∀ g a, (step g a).edgeWriteTrace = g.edgeWriteTrace) :
    ∀ (l : List α) (g : KGraph),
      (l.foldl step g).edgeWriteTrace = g.edgeWriteTrace := by
  intro l
  induction l with
  | nil => intro g; rfl
  | cons x xs ih =>
    intro g
    rw [List.foldl_cons, ih, hstep]

theorem edgeNodeBackfill_trace (env : MergeEnv) (si ti so fp de : String)
    (g : KGraph) (nid : String) :
    (edgeNodeBackfill env si ti so fp de g nid).edgeWriteTrace =
      g.edgeWriteTrace := by
  unfold edgeNodeBackfill
  split
  · rfl
  · split
    · rfl
    · rfl

theorem merge_nodes_trace (env : MergeEnv) (g : KGraph) (n : String)
    (nds : List EntityRecord) :
    (_merge_nodes_then_upsert env g n nds).1.edgeWriteTrace =
      g.edgeWriteTrace := by
  unfold _merge_nodes_then_upsert
  simp only []
  split
  · rfl
  · split
    · rfl
    · rfl

theorem data_isPrefixOf_append (p s : String) :
    p.data.isPrefixOf (p ++ s).data = true := by
  rw [String.data_append]
  exact List.isPrefixOf_iff_prefix.mpr (List.prefix_append _ _)

theorem pairCombos_mem {α : Type} :
    ∀ (l : List α) (p : α × α), p ∈ pairCombos l → p.1 ∈ l ∧ p.2 ∈ l := by
  intro l
  induction l with
  | nil => intro p h; exact absurd h (List.not_mem_nil p)
  | cons x xs ih =>
    intro p h
    unfold pairCombos at h
    rcases List.mem_append.mp h with h | h
    · rcases List.mem_map.mp h with ⟨y, hy, rfl⟩
      exact ⟨List.mem_cons_self _ _, List.mem_cons_of_mem _ hy⟩
    · have h2 := ih p h
      exact ⟨List.mem_cons_of_mem _ h2.1, List.mem_cons_of_mem _ h2.2⟩

theorem merge_edges_selfLoopFree (env : MergeEnv) (g : KGraph)
    (src tgt : String) (eds : List EdgeRecord)
    (hsrc : standardize_entity_name src = src)
    (htgt : standardize_entity_name tgt = tgt)
    (hg : selfLoopFree g) :
    selfLoopFree (_merge_edges_then_upsert env g src tgt eds).1 := by
  unfold _merge_edges_then_upsert
  split
  · exact hg
  · rename_i hne
    simp only [hsrc, htgt]
    refine selfLoopFree_upsertEdge _ _ ?_ hne
    refine selfLoopFree_of_trace_eq (foldl_trace_invariant _ ?_ _ _) hg
    intro g2 a
    exact edgeNodeBackfill_trace env _ _ _ _ _ g2 a

theorem merge_assoc_selfLoopFree (env : MergeEnv) (g : KGraph) (a : AssocRecord)
    (hent : ∀ e ∈ a.entities,
      ("assoc-").data.isPrefixOf (standardize_entity_name e).data = false)
    (hg : selfLoopFree g) :
    selfLoopFree (_merge_association_then_upsert env g a).1 := by
  unfold _merge_association_then_upsert
  simp only []
  split
  · exact selfLoopFree_warn _ hg
  · split
    · exact selfLoopFree_warn _ hg
    · refine foldl_invariant_mem selfLoopFree _ _ ?_ _ ?_
      · intro acc st hst hacc
        rcases pairCombos_mem _ st hst with ⟨h1, h2⟩
        rcases List.mem_map.mp h1 with ⟨e1, _, heq1⟩
        rcases List.mem_map.mp h2 with ⟨e2, _, heq2⟩
        refine merge_edges_selfLoopFree env acc st.1 st.2 _ ?_ ?_ hacc
        · rw [← heq1]; exact pyStrip_idem _
        · rw [← heq2]; exact pyStrip_idem _
      · refine foldl_invariant_mem selfLoopFree _ _ ?_ _ ?_
        · intro acc ent hentm hacc
          rcases List.mem_map.mp hentm with ⟨e, he, heq⟩
          refine selfLoopFree_upsertEdge _ _ hacc ?_
          intro hEq
          have hpf := hent e he
          rw [heq, ← hEq, data_isPrefixOf_append] at hpf
          exact Bool.noConfusion hpf
        · exact selfLoopFree_upsertNode _ _ hg

theorem merge_mh_selfLoopFree (env : MergeEnv) (g : KGraph) (p : MultiHopRecord)
    (hent : ∀ e ∈ p.path_entities,
      ("mh-").data.isPrefixOf (standardize_entity_name e).data = false)
    (hg : selfLoopFree g) :
    selfLoopFree (_merge_multi_hop_then_upsert env g p).1 := by
  unfold _merge_multi_hop_then_upsert
  simp only []
  split
  · exact selfLoopFree_warn _ hg
  · split
    · exact selfLoopFree_warn _ hg
    · refine foldl_invariant_mem
        (fun acc : KGraph × List MhEdge => selfLoopFree acc.1) _ _ ?_ _ ?_
      · intro acc ent hentm hacc
        rcases List.mem_map.mp hentm with ⟨e, he, heq⟩
        refine selfLoopFree_upsertEdge _ _ hacc ?_
        intro hEq
        have hpf := hent e he
        rw [heq, ← hEq, data_isPrefixOf_append] at hpf
        exact Bool.noConfusion hpf
      · exact selfLoopFree_upsertNode _ _ hg

theorem fanOutStep_selfLoopFree (env : MergeEnv)
    (hpaths : ∀ g s paths, env.multiHopPathsFn g s = some paths →
      ∀ p ∈ paths, 2 ≤ p.path_entities.length →
        p.path_entities.headD "" ≠ p.path_entities.getLastD "")
    (acc : KGraph × List MhEdge) (ent : NodeData)
    (hacc : selfLoopFree acc.1) :
    selfLoopFree (fanOutStep env acc ent).1 := by
  unfold fanOutStep
  cases hp : env.multiHopPathsFn acc.1 ent.entity_id with
  | none => exact selfLoopFree_warn _ hacc
  | some paths =>
    refine foldl_invariant_mem
      (fun a2 : KGraph × List MhEdge => selfLoopFree a2.1)
      (fanOutPathStep env ent) _ ?_ _ hacc
    intro acc2 q hqm hacc2
    show selfLoopFree (fanOutPathStep env ent acc2 q).1
    unfold fanOutPathStep
    split
    · exact hacc2
    · rename_i hlen
      exact selfLoopFree_upsertEdge _ _ hacc2
        (hpaths acc.1 ent.entity_id paths hp q hqm (by omega))

theorem nodesPhase_selfLoopFree (env : MergeEnv) (g : KGraph)
    (l : List (String × List EntityRecord)) (hg : selfLoopFree g) :
    selfLoopFree (nodesPhase env g l).1 := by
  unfold nodesPhase
  refine foldl_invariant_mem
    (fun a : KGraph × List NodeData => selfLoopFree a.1)
    (nodeMergeStep env) _ ?_ _ hg
  intro acc kv _ hacc
  exact selfLoopFree_of_trace_eq (merge_nodes_trace env acc.1 kv.1 kv.2) hacc

theorem edgesPhase_selfLoopFree (env : MergeEnv) (g : KGraph)
    (l : List ((String × String) × List EdgeRecord))
    (hkeys : ∀ kv ∈ l,
      standardize_entity_name kv.1.1 = kv.1.1 ∧
      standardize_entity_name kv.1.2 = kv.1.2)
    (hg : selfLoopFree g) :
    selfLoopFree (edgesPhase env g l).1 := by
  unfold edgesPhase
  refine foldl_invariant_mem
    (fun a : KGraph × List RelOut => selfLoopFree a.1)
    (edgeMergeStep env) _ ?_ _ hg
  intro acc kv hm hacc
  exact merge_edges_selfLoopFree env acc.1 kv.1.1 kv.1.2 kv.2 (hkeys kv hm).1
    (hkeys kv hm).2 hacc

theorem assocPhase_selfLoopFree (env : MergeEnv) (g : KGraph)
    (l : List AssocRecord)
    (hent : ∀ a ∈ l, ∀ e ∈ a.entities,
      ("assoc-").data.isPrefixOf (standardize_entity_name e).data = false)
    (hg : selfLoopFree g) :
    selfLoopFree (assocPhase env g l).1 := by
  unfold assocPhase
  split
  · refine foldl_invariant_mem
      (fun x : KGraph × List NodeData => selfLoopFree x.1)
      (assocMergeStep env) _ ?_ _ hg
    intro acc a hm hacc
    exact merge_assoc_selfLoopFree env acc.1 a (hent a hm) hacc
  · exact hg

theorem mhPhase_selfLoopFree (env : MergeEnv) (g : KGraph)
    (l : List MultiHopRecord)
    (hent : ∀ p ∈ l, ∀ e ∈ p.path_entities,
      ("mh-").data.isPrefixOf (standardize_entity_name e).data = false)
    (hg : selfLoopFree g) :
    selfLoopFree (mhPhase env g l).1 := by
  unfold mhPhase
  split
  · refine foldl_invariant_mem
      (fun x : KGraph × List NodeData × List MhEdge => selfLoopFree x.1)
      (mhMergeStep env) _ ?_ _ hg
    intro acc p hm hacc
    exact merge_mh_selfLoopFree env acc.1 p (hent p hm) hacc
  · exact hg

theorem fanOutPhase_selfLoopFree (env : MergeEnv) (g : KGraph)
    (ents : List NodeData)
    (hpaths : ∀ g2 s paths, env.multiHopPathsFn g2 s = some paths →
      ∀ p ∈ paths, 2 ≤ p.path_entities.length →
        p.path_entities.headD "" ≠ p.path_entities.getLastD "")
    (hg : selfLoopFree g) :
    selfLoopFree (fanOutPhase env g ents).1 := by
  unfold fanOutPhase
  split
  · refine foldl_invariant_mem
      (fun a : KGraph × List MhEdge => selfLoopFree a.1)
      (fanOutStep env) _ ?_ _ hg
    intro acc ent _ hacc
    exact fanOutStep_selfLoopFree env hpaths acc ent hacc
  · exact hg

theorem communityPhase_selfLoopFree (env : MergeEnv) (err : Option String)
    (g : KGraph) (hg : selfLoopFree g) :
    selfLoopFree (communityPhase env err g).1 := by
  unfold communityPhase
  split
  · refine foldl_invariant_mem
      (fun a : KGraph × List VdbEntry => selfLoopFree a.1)
      (communityStep env) _ ?_ _ hg
    intro acc nc _ hacc
    show selfLoopFree (communityStep env acc nc).1
    unfold communityStep
    cases hn : getNode acc.1 nc.1 with
    | some n => exact selfLoopFree_upsertNode _ _ hacc
    | none => exact selfLoopFree_upsertNode _ _ hacc
  · exact hg

/-- Claim C2: no merge operation ever upserts a self-loop edge.  The
relationship merge skips groups whose raw endpoints coincide and, on
already-standardized keys (which is what the extraction handlers produce,
`standardize_entity_name` being idempotent), distinct endpoints stay
distinct; association member and pairwise edges, multi-hop latent edges
and the fan-out latent edges have distinct endpoints as long as entity
names do not live in the reserved `assoc-` / `mh-` id namespaces and the
graph backend returns simple paths (first entity different from the
last).  Under these hypotheses the edge-write trace of
`merge_nodes_and_edges` stays self-loop free. -/
theorem C2_no_self_loop_edges (env : MergeEnv) (g0 : KGraph)
    (chunk_results : List ChunkResult) (file_path : String)
    (hg0 : selfLoopFree g0)
    (hkeys : ∀ kv ∈ collectAllEdges chunk_results,
      standardize_entity_name kv.1.1 = kv.1.1 ∧
      standardize_entity_name kv.1.2 = kv.1.2)
    (hassoc : ∀ a ∈ chunk_results.flatMap (fun cr => cr.maybe_assocs),
      ∀ e ∈ a.entities,
        ("assoc-").data.isPrefixOf (standardize_entity_name e).data = false)
    (hmh : ∀ p ∈ chunk_results.flatMap (fun cr => cr.maybe_multi_hops),
      ∀ e ∈ p.path_entities,
        ("mh-").data.isPrefixOf (standardize_entity_name e).data = false)
    (hpaths : ∀ g s paths, env.multiHopPathsFn g s = some paths →
      ∀ p ∈ paths, 2 ≤ p.path_entities.length →
        p.path_entities.headD "" ≠ p.path_entities.getLastD "") :
    selfLoopFree (merge_nodes_and_edges env g0 chunk_results file_path).graph := by
  unfold merge_nodes_and_edges
  simp only []
  exact communityPhase_selfLoopFree env _ _
    (fanOutPhase_selfLoopFree env _ _ hpaths
      (mhPhase_selfLoopFree env _ _ hmh
        (assocPhase_selfLoopFree env _ _ hassoc
          (edgesPhase_selfLoopFree env _ _ hkeys
            (nodesPhase_selfLoopFree env _ _ hg0)))))

/-- A single relationship record between distinct standardized names. -/
def c2Edge : EdgeRecord :=
  { src_id := "A", tgt_id := "B", weight := 1, description := "d",
    keywords := "k", source_id := "s", file_path := "f" }

/-- A one-edge extraction batch for the C2 witness. -/
def c2Batch : List ChunkResult :=
  [{ maybe_nodes := [], maybe_edges := [(("A", "B"), [c2Edge])],
     maybe_assocs := [], maybe_multi_hops := [] }]

/-- Witness for `C2_no_self_loop_edges`: a concrete one-edge merge whose
whole edge-write trace is self-loop free. -/
theorem C2_no_self_loop_edges_witness :
    selfLoopFree (merge_nodes_and_edges evalMergeEnv emptyKGraph c2Batch "f").graph :=
  C2_no_self_loop_edges evalMergeEnv emptyKGraph c2Batch "f"
    (fun ab hab => absurd hab (List.not_mem_nil ab))
    (fun kv hkv => by
      have hc : collectAllEdges c2Batch = [(("A", "B"), [c2Edge])] := rfl
      rw [hc, List.mem_singleton] at hkv
      subst hkv
      exact ⟨by decide, by decide⟩)
    (fun a ha => absurd ha (List.not_mem_nil a))
    (fun p hp => absurd hp (List.not_mem_nil p))
    (by
      intro g s paths h p hp hl
      rw [← Option.some.inj h] at hp
      exact absurd hp (List.not_mem_nil p))

/-- A single relationship record of weight 1 for the duplicate-merge
experiment. -/
def c1Edge : EdgeRecord :=
  { src_id := "A", tgt_id := "B", weight := 1, description := "d",
    keywords := "k", source_id := "s", file_path := "f" }

/-- A one-edge extraction batch for the duplicate-merge experiment. -/
def c1Batch : List ChunkResult :=
  [{ maybe_nodes := [], maybe_edges := [(("A", "B"), [c1Edge])],
     maybe_assocs := [], maybe_multi_hops := [] }]

/-- The graph after merging `c1Batch` once into the empty store. -/
def c1Once : KGraph :=
  (merge_nodes_and_edges evalMergeEnv emptyKGraph c1Batch "f").graph

/-- The graph after merging the same batch a second time. -/
def c1Twice : KGraph :=
  (merge_nodes_and_edges evalMergeEnv c1Once c1Batch "f").graph

/-- Claim C1 counterexample: merging the same one-edge batch twice is NOT
idempotent.  `_merge_edges_then_upsert` sums the incoming weights with the
already-stored weight (operate.py line 654), so the second merge raises
the edge weight from 1 to 2 and the graph state differs from the
single-merge state. -/
theorem C1_counterexample :
    (getEdge c1Once "A" "B").map EdgeData.weight = some (1 : ℚ) ∧
    (getEdge c1Twice "A" "B").map EdgeData.weight = some (2 : ℚ) ∧
    (getEdge c1Twice "A" "B").map EdgeData.weight ≠
      (getEdge c1Once "A" "B").map EdgeData.weight := by
  have h1 : (getEdge c1Once "A" "B").map EdgeData.weight =
      some ((1 : ℚ) + 0) := rfl
  have h2 : (getEdge c1Twice "A" "B").map EdgeData.weight =
      some ((1 : ℚ) + ((1 + 0) + 0)) := rfl
  refine ⟨?_, ?_, ?_⟩
  · rw [h1]; norm_num
  · rw [h2]; norm_num
  · rw [h1, h2]; norm_num

theorem alistGet_alistUpsert_self {α β : Type} [DecidableEq α]
    (l : List (α × β)) (k : α) (v : β) :
    alistGet (alistUpsert l k v) k = some v := by
  induction l with
  | nil =>
    show (if k = k then some v else alistGet ([] : List (α × β)) k) = some v
    rw [if_pos rfl]
  | cons p rest ih =>
    obtain ⟨a, b⟩ := p
    unfold alistUpsert
    by_cases h : a = k
    · rw [if_pos h]
      show (if k = k then some v else alistGet rest k) = some v
      rw [if_pos rfl]
    · rw [if_neg h]
      show (if a = k then some b else alistGet (alistUpsert rest k v) k) = some v
      rw [if_neg h]
      exact ih

/-- The weight stored by `upsert_edge` is the weight of the incoming edge
payload (only the `latent` key can be inherited from a previous value). -/
theorem getEdge_upsertEdge_self (g : KGraph) (a b : String) (ed : EdgeData)
    (w : Bool) :
    (getEdge (upsertEdge g a b ed w) a b).map EdgeData.weight =
      some ed.weight := by
  unfold getEdge upsertEdge
  simp only []
  rw [alistGet_alistUpsert_self]
  cases h : alistGet g.edges (edgeKey a b) with
  | none =>
    simp only [h]
    rfl
  | some old =>
    simp only [h]
    cases w
    · rfl
    · rfl

/-- Two relationship records with distinct description fragments for the
duplicate-merge experiment. -/
def c1EdgeA : EdgeRecord :=
  { src_id := "A", tgt_id := "B", weight := 1, description := "a",
    keywords := "k", source_id := "s", file_path := "f" }

def c1EdgeB : EdgeRecord :=
  { src_id := "A", tgt_id := "B", weight := 1, description := "b",
    keywords := "k", source_id := "s", file_path := "f" }

/-- A one-group batch with two distinct description fragments. -/
def c1Batch2 : List ChunkResult :=
  [{ maybe_nodes := [], maybe_edges := [(("A", "B"), [c1EdgeA, c1EdgeB])],
     maybe_assocs := [], maybe_multi_hops := [] }]

/-- The graph after merging the two-fragment batch once. -/
def c1Once2 : KGraph :=
  (merge_nodes_and_edges evalMergeEnv emptyKGraph c1Batch2 "f").graph

/-- The graph after merging the two-fragment batch a second time. -/
def c1Twice2 : KGraph :=
  (merge_nodes_and_edges evalMergeEnv c1Once2 c1Batch2 "f").graph

/-- A previously stored edge value for the re-merge weight law. -/
def c1StoredEdge : EdgeData :=
  { weight := 1, description := "d", keywords := "k", source_id := "s",
    file_path := "f", created_at := 0 }

/-- A graph already holding `c1StoredEdge` between A and B. -/
def c1Stored : KGraph := upsertEdge emptyKGraph "A" "B" c1StoredEdge false

/-- Claim C1 amended: the duplicate merge is not idempotent, and what is
true is this.  Universally, the merged edge weight is the sum of the
incoming record weights plus the previously stored weight when one
exists (so a re-merge adds the batch sum again); the other attributes
are not always preserved either: the stored joined description re-enters
the deduplicated fragment set unsplit, so a two-fragment group stores
`a<SEP>b` after one merge and `a<SEP>a<SEP>b<SEP>b` after the second.
Only for single-fragment groups, as in the one-fragment batch here, does
the second merge leave the nodes unchanged and change the edge solely in
its weight (1 then 1+1). -/
theorem C1_amended :
    (∀ (env : MergeEnv) (g0 : KGraph) (src tgt : String)
       (eds : List EdgeRecord),
       src ≠ tgt →
       standardize_entity_name src = src →
       standardize_entity_name tgt = tgt →
       getEdge g0 src tgt = none →
       (getEdge (_merge_edges_then_upsert env g0 src tgt eds).1 src tgt).map
           EdgeData.weight = some ((eds.map (·.weight)).sum)) ∧
    (∀ (env : MergeEnv) (g0 : KGraph) (src tgt : String)
       (eds : List EdgeRecord) (ed0 : EdgeData),
       src ≠ tgt →
       standardize_entity_name src = src →
       standardize_entity_name tgt = tgt →
       getEdge g0 src tgt = some ed0 →
       (getEdge (_merge_edges_then_upsert env g0 src tgt eds).1 src tgt).map
           EdgeData.weight = some (((eds.map (·.weight)) ++ [ed0.weight]).sum)) ∧
    (c1Twice.nodes = c1Once.nodes ∧
     (getEdge c1Twice "A" "B").map (fun e => { e with weight := 0 }) =
       (getEdge c1Once "A" "B").map (fun e => { e with weight := 0 }) ∧
     (getEdge c1Once "A" "B").map EdgeData.weight = some (1 : ℚ) ∧
     (getEdge c1Twice "A" "B").map EdgeData.weight = some (1 + 1 : ℚ)) ∧
    ((getEdge c1Once2 "A" "B").map EdgeData.description = some "a<SEP>b" ∧
     (getEdge c1Twice2 "A" "B").map EdgeData.description =
       some "a<SEP>a<SEP>b<SEP>b") := by
  refine ⟨?_, ?_, ⟨rfl, rfl, ?_, ?_⟩, rfl, rfl⟩
  · intro env g0 src tgt eds hne hsrc htgt hnone
    unfold _merge_edges_then_upsert
    rw [if_neg hne]
    simp only [hsrc, htgt, hnone, List.append_nil]
    rw [getEdge_upsertEdge_self]
  · intro env g0 src tgt eds ed0 hne hsrc htgt hsome
    unfold _merge_edges_then_upsert
    rw [if_neg hne]
    simp only [hsrc, htgt, hsome]
    rw [getEdge_upsertEdge_self]
  · rw [show (getEdge c1Once "A" "B").map EdgeData.weight =
        some ((1 : ℚ) + 0) from rfl]
    norm_num
  · rw [show (getEdge c1Twice "A" "B").map EdgeData.weight =
        some ((1 : ℚ) + ((1 + 0) + 0)) from rfl]
    norm_num

/-- Witness for `C1_amended`: the fresh-edge and re-merge weight laws
evaluated on a concrete environment, graph and record. -/
theorem C1_amended_witness :
    (getEdge (_merge_edges_then_upsert evalMergeEnv emptyKGraph "A" "B"
        [c1Edge]).1 "A" "B").map EdgeData.weight =
      some (([c1Edge].map (·.weight)).sum) ∧
    (getEdge (_merge_edges_then_upsert evalMergeEnv c1Stored "A" "B"
        [c1Edge]).1 "A" "B").map EdgeData.weight =
      some ((([c1Edge].map (·.weight)) ++ [c1StoredEdge.weight]).sum) :=
  ⟨C1_amended.1 evalMergeEnv emptyKGraph "A" "B" [c1Edge] (by decide)
     (by decide) (by decide) rfl,
   C1_amended.2.1 evalMergeEnv c1Stored "A" "B" [c1Edge] c1StoredEdge
     (by decide) (by decide) (by decide) rfl⟩
